import Mathlib

/-! # FleetLink reservation engine

A shallow embedding of the two controllers of the FleetLink backend
(`backend/controllers/bookingController.js` and
`backend/controllers/vehicleController.js`) together with the part of the
JavaScript and Mongoose run time they rely on, followed by theorems about
conflict detection, duration estimation and the no-overlap invariant.

Conventions of the embedding.

* A JavaScript number is an exact integer, or NaN (`none`).  Every instant a
  `Date` can hold is below `2 ^ 53` in magnitude, and so is every pincode of
  up to fifteen digits, so the arithmetic of the controllers is exact there.
  The handlers compute with these integers.  The section on doubles evaluates
  the duration as the run time does, with rounding, on codes of any size, and
  `estimatedRideDurationHours_of_lt` shows that the two agree as long as the
  codes and their difference are below `2 ^ 53` in magnitude.
* A `Date` is its time value in milliseconds since the epoch, or Invalid Date
  (`none`).
* An `ObjectId` is the natural number denoted by its 24 hexadecimal digits.
* The database is a pair of document lists kept in insertion order, with a
  counter that supplies the identifier of the next saved document.
* An exception thrown inside a controller ends in its `catch` clause, which
  answers with status 500.
* In the handlers every awaited query is served by the database.  The section
  on rejected queries adds the calls of `createBooking` and `deleteVehicle` in
  which one query is rejected.
-/

namespace FleetLink

/-! ## JavaScript values -/

/-- A value found in `req.body` or `req.query`: absent, `null`, a boolean, an
integral number or a string. Arrays and nested objects are not modelled. -/
inductive JVal where
  | undefined
  | null
  | bool (b : Bool)
  | num (n : Int)
  | str (s : String)
deriving DecidableEq, Repr

/-- A number: an integer, or NaN when `none`. -/
abbrev JNum := Option Int

/-- A `Date`: milliseconds since the epoch, or Invalid Date when `none`. -/
abbrev JDate := Option Int

/-- An `ObjectId`, read as a 96-bit number. -/
abbrev ObjectId := Nat

/-- The language's `Date.parse` on strings, left to the platform. -/
abbrev DateParse := String → Option Int

namespace JVal

/-- Truthiness: `!v` in the source is `!(truthy v)`. -/
def truthy : JVal → Bool
  | undefined => false
  | null => false
  | bool b => b
  | num n => n != 0
  | str s => !s.data.isEmpty

/-- The `typeof v === "string"` test. -/
def isString : JVal → Bool
  | str _ => true
  | _ => false

/-- The `typeof v === "number"` test. -/
def isNumber : JVal → Bool
  | num _ => true
  | _ => false

end JVal

/-- The character of a decimal digit `d < 10`. -/
def digitChar (d : Nat) : Char := Char.ofNat (48 + d)

/-- Decimal digits of `n`, most significant first, pushed in front of `acc`. -/
def decimalAux : Nat → Nat → List Char → List Char
  | 0, _, acc => acc
  | fuel + 1, n, acc =>
    if n < 10 then digitChar n :: acc
    else decimalAux fuel (n / 10) (digitChar (n % 10) :: acc)

/-- The decimal numeral of a natural number. -/
def decimal (n : Nat) : List Char := decimalAux (n + 1) n []

/-- The decimal numeral of an integer, as `Number.prototype.toString` prints
it: a minus sign for negative numbers and no leading zeros. -/
def numeral (n : Int) : String :=
  if n < 0 then String.mk ('-' :: decimal n.natAbs) else String.mk (decimal n.natAbs)

/-- The abstract operation `ToString` on the modelled values. A number is
printed with all its decimal digits, which is what the language prints for the
integers below `2 ^ 53` in magnitude; `Number.toJSString` prints a double of
any size. -/
def JVal.toJSString : JVal → String
  | .undefined => "undefined"
  | .null => "null"
  | .bool true => "true"
  | .bool false => "false"
  | .num n => numeral n
  | .str s => s

/-- White space and line terminators skipped by `parseInt`. -/
def isStrWhiteSpaceChar (c : Char) : Bool :=
  c.toNat ∈ [0x09, 0x0A, 0x0B, 0x0C, 0x0D, 0x20, 0xA0, 0x1680, 0x2000, 0x2001, 0x2002,
    0x2003, 0x2004, 0x2005, 0x2006, 0x2007, 0x2008, 0x2009, 0x200A, 0x2028, 0x2029,
    0x202F, 0x205F, 0x3000, 0xFEFF]

/-- The value of a character as a digit in radix `R`, when it is one. -/
def radixDigit (R : Nat) (c : Char) : Option Nat :=
  let v :=
    if 48 ≤ c.toNat ∧ c.toNat ≤ 57 then c.toNat - 48
    else if 97 ≤ c.toNat ∧ c.toNat ≤ 122 then c.toNat - 87
    else if 65 ≤ c.toNat ∧ c.toNat ≤ 90 then c.toNat - 55
    else 36
  if v < R then some v else none

/-- The longest prefix of radix-`R` digits, read as a number starting from `acc`;
the flag tells whether at least one digit was read. -/
def readDigits (R : Nat) : List Char → Nat → Bool → Nat × Bool
  | [], acc, seen => (acc, seen)
  | c :: cs, acc, seen =>
    match radixDigit R c with
    | some d => readDigits R cs (acc * R + d) true
    | none => (acc, seen)

/-- The sign of `parseInt`: a leading `-` or `+` is taken off. -/
def signOf : List Char → Int × List Char
  | '-' :: rest => (-1, rest)
  | '+' :: rest => (1, rest)
  | S => (1, S)

/-- The radix of `parseInt` without a radix argument: 16 after a leading `0x`
or `0X`, which is taken off, and 10 otherwise. -/
def radixOf : List Char → Nat × List Char
  | '0' :: 'x' :: rest => (16, rest)
  | '0' :: 'X' :: rest => (16, rest)
  | S => (10, S)

/-- The global `parseInt(v)` without a radix argument: skip white space, take
a sign, accept a `0x` prefix for radix 16, and read the longest digit prefix;
NaN when there is no digit. The result is the integer that the digits denote,
which is the Number the language returns as long as it is below `2 ^ 53` in
magnitude; `Number.parseInt` rounds it to a double. -/
def parseInt (v : JVal) : JNum :=
  let inputString := v.toJSString.data
  let S := inputString.dropWhile isStrWhiteSpaceChar
  let signed := signOf S
  let radixed := radixOf signed.2
  match readDigits radixed.1 radixed.2 0 false with
  | (mathInt, true) => some (signed.1 * (mathInt : Int))
  | (_, false) => none

/-- The expression `Math.abs(parseInt(toPincode) - parseInt(fromPincode)) % 24`
of `createBooking` (lines 19-20) and of `getAvailableVehicles` (lines 89-90).
NaN propagates through the subtraction, `Math.abs` and `%`. The arithmetic is
that of the integers; `Number.estimatedRideDurationHours` is the expression on
doubles. -/
def estimatedRideDurationHours (toPincode fromPincode : JVal) : JNum :=
  match parseInt toPincode, parseInt fromPincode with
  | some t, some f => some (Int.tmod (|t - f|) 24)
  | _, _ => none

/-! ### Numbers as doubles

A Number of JavaScript is an IEEE-754 double. `parseInt` above computes the
mathematical integer that the digits denote; the Number that the language
returns is that integer rounded to the nearest double. The definitions of this
section carry out the rounding, so that the expression of the duration can be
evaluated as the run time evaluates it, on codes of any size. Up to `2 ^ 53`
in magnitude every integer is a double and the rounding changes nothing. -/

/-- A Number whose value is an integer, an infinity or NaN. The two zeros are
not told apart: no expression of the controllers separates them. -/
inductive Number where
  | nan
  | finite (n : Int)
  | infinity (negative : Bool)
deriving DecidableEq, Repr

/-- The number of binary digits of `m`, at most `fuel` of them counted. -/
def bitLengthAux : Nat → Nat → Nat
  | 0, _ => 0
  | fuel + 1, m => if m = 0 then 0 else bitLengthAux fuel (m / 2) + 1

/-- The number of binary digits of `m`. -/
def bitLength (m : Nat) : Nat := bitLengthAux m m

/-- The double nearest to the natural number `m`, a tie going to the even
significand of 53 bits; `none` when `m` rounds to Infinity, which it does when
the rounded value would have more than 1024 binary digits. -/
def roundToDouble (m : Nat) : Option Nat :=
  if m < 2 ^ 53 then some m
  else
    let e := bitLength m - 53
    let q := m / 2 ^ e
    let r := m % 2 ^ e
    let half := 2 ^ (e - 1)
    let significand := if r > half ∨ (r = half ∧ q % 2 = 1) then q + 1 else q
    if bitLength (significand * 2 ^ e) ≤ 1024 then some (significand * 2 ^ e) else none

/-- The Number of an integer: the nearest double, or an infinity. A JSON
number in a request body and the integer read by `parseInt` become Numbers
this way. -/
def Number.ofInt (z : Int) : Number :=
  match roundToDouble z.natAbs with
  | some m => .finite (if z < 0 then -(m : Int) else (m : Int))
  | none => .infinity (decide (z < 0))

/-- The Number of an integer or NaN. -/
def Number.ofJNum : JNum → Number
  | some z => Number.ofInt z
  | none => .nan

/-- The digits `s` and the exponent `n` that `Number::toString` chooses for the
double `m`, a natural number of `n` decimal digits. The search goes through the
numbers of digits `k`, `k + 1`, ... below `n`, and stops at the first for which
a number `s` of that many digits has `s * 10 ^ (n - k)` round to `m`; of two
such `s` it takes the one nearer to `m`, the even one when they are equally
near. Rounding up to a power of ten adds one to the exponent. When no shorter
numeral rounds to `m`, the digits are those of `m` itself. -/
def shortestDigits (m n : Nat) : Nat → Nat → Nat × Nat
  | 0, _ => (m, n)
  | fuel + 1, k =>
    let p := 10 ^ (n - k)
    let lo := m / p
    let hi := lo + 1
    let okLo := roundToDouble (lo * p) == some m
    let okHi := roundToDouble (hi * p) == some m
    if okLo && (!okHi || decide (m - lo * p < hi * p - m) ||
        (decide (m - lo * p = hi * p - m) && lo % 2 == 0)) then (lo, n)
    else if okHi then (if hi = 10 ^ k then (10 ^ (k - 1), n + 1) else (hi, n))
    else shortestDigits m n fuel (k + 1)

/-- The numeral of `Number::toString` in radix 10 for a double that is a natural
number: up to 21 digits the shortest digits followed by zeros, beyond that the
exponent form `d.ddde+x`, or `de+x` when there is one digit. -/
def numberDigits (m : Nat) : List Char :=
  let r := shortestDigits m (decimal m).length ((decimal m).length - 1) 1
  let digits := decimal r.1
  if r.2 ≤ 21 then digits ++ List.replicate (r.2 - digits.length) '0'
  else
    match digits with
    | [] => []
    | [d] => d :: 'e' :: '+' :: decimal (r.2 - 1)
    | d :: rest => d :: '.' :: (rest ++ 'e' :: '+' :: decimal (r.2 - 1))

/-- The abstract operation `ToString` on a Number. -/
def Number.toJSString : Number → String
  | .nan => "NaN"
  | .infinity false => "Infinity"
  | .infinity true => "-Infinity"
  | .finite n =>
    if n < 0 then String.mk ('-' :: numberDigits n.natAbs) else String.mk (numberDigits n.natAbs)

/-- The value `parseInt(v)` as a Number. A JSON number is a double before it
is printed for `parseInt` to read; the integer read is rounded to a double.
All the digits read count, as they do in V8; the language lets an
implementation read the decimal digits after the twentieth as zeros. -/
def Number.parseInt : JVal → Number
  | .num n => Number.ofJNum (FleetLink.parseInt (.str (Number.ofInt n).toJSString))
  | v => Number.ofJNum (FleetLink.parseInt v)

/-- The difference `x - y` of two Numbers. -/
def Number.sub : Number → Number → Number
  | .finite a, .finite b => Number.ofInt (a - b)
  | .finite _, .infinity negative => .infinity (!negative)
  | .infinity negative, .finite _ => .infinity negative
  | .infinity a, .infinity b => if a = b then .nan else .infinity a
  | _, _ => .nan

/-- The function `Math.abs`. -/
def Number.abs : Number → Number
  | .finite a => .finite |a|
  | .infinity _ => .infinity false
  | .nan => .nan

/-- The remainder `x % d` by a positive integer `d`: it has the sign of `x` and
is exact; the remainder of an infinity is NaN. -/
def Number.rem (x : Number) (d : Int) : Number :=
  match x with
  | .finite a => .finite (Int.tmod a d)
  | _ => .nan

/-- The expression `Math.abs(parseInt(toPincode) - parseInt(fromPincode)) % 24`
of `createBooking` (lines 19-20) and of `getAvailableVehicles` (lines 89-90),
evaluated on doubles. -/
def Number.estimatedRideDurationHours (toPincode fromPincode : JVal) : Number :=
  (((Number.parseInt toPincode).sub (Number.parseInt fromPincode)).abs).rem 24

/-- The abstract operation `TimeClip`: a time value beyond 8.64e15 ms from the
epoch, or NaN, makes the date invalid. -/
def timeClip (t : JNum) : JDate :=
  match t with
  | some t => if t.natAbs ≤ 8640000000000000 then some t else none
  | none => none

/-- The constructor `new Date(v)` on a request value. -/
def newDate (D : DateParse) : JVal → JDate
  | .str s => timeClip (D s)
  | .num n => timeClip (some n)
  | .bool true => some 1
  | .bool false => some 0
  | .null => some 0
  | .undefined => none

/-- The end instant `new Date(new Date(startTime).getTime() +
estimatedRideDurationHours * 60 * 60 * 1000)`. -/
def endDate (start : JDate) (hours : JNum) : JDate :=
  match start, hours with
  | some t, some h => timeClip (some (t + h * 60 * 60 * 1000))
  | _, _ => none

/-! ### ISO-8601 instants

A concrete `Date.parse` for the UTC profile `YYYY-MM-DDTHH:mm:ssZ`, with an
optional `.sss` fraction, used to run the scenarios of the test-suite. -/

/-- Read a run of decimal digits as a number. -/
def digitsValue : List Char → Option Nat
  | [] => none
  | cs => if cs.all Char.isDigit then some (cs.foldl (fun a c => a * 10 + (c.toNat - 48)) 0) else none

/-- Days in a month of the proleptic Gregorian calendar. -/
def daysInMonth (y m : Nat) : Nat :=
  if m = 2 then (if (y % 4 = 0 ∧ y % 100 ≠ 0) ∨ y % 400 = 0 then 29 else 28)
  else if m = 4 ∨ m = 6 ∨ m = 9 ∨ m = 11 then 30 else 31

/-- Days from 1970-01-01 to the given civil date. -/
def daysFromCivil (y m d : Nat) : Int :=
  let y' : Int := if m ≤ 2 then (y : Int) - 1 else y
  let era : Int := y' / 400
  let yoe : Int := y' - era * 400
  let mp : Int := if m ≤ 2 then (m : Int) + 9 else (m : Int) - 3
  let doy : Int := (153 * mp + 2) / 5 + (d : Int) - 1
  let doe : Int := yoe * 365 + yoe / 4 - yoe / 100 + doy
  era * 146097 + doe - 719468

/-- Milliseconds since the epoch of a validated civil date and time. -/
def utcMillis (y mo d h mi s ms : Nat) : Option Int :=
  if 1 ≤ mo ∧ mo ≤ 12 ∧ 1 ≤ d ∧ d ≤ daysInMonth y mo ∧ h ≤ 23 ∧ mi ≤ 59 ∧ s ≤ 59 then
    some ((((daysFromCivil y mo d * 24 + h) * 60 + mi) * 60 + s) * 1000 + ms)
  else none

/-- The parser `Date.parse` restricted to `YYYY-MM-DDTHH:mm:ssZ` and `YYYY-MM-DDTHH:mm:ss.sssZ`. -/
def isoDateParse : DateParse := fun str =>
  match str.data with
  | [y1, y2, y3, y4, '-', m1, m2, '-', d1, d2, 'T', h1, h2, ':', n1, n2, ':', s1, s2, 'Z'] =>
    match digitsValue [y1, y2, y3, y4], digitsValue [m1, m2], digitsValue [d1, d2],
      digitsValue [h1, h2], digitsValue [n1, n2], digitsValue [s1, s2] with
    | some y, some mo, some d, some h, some mi, some s => utcMillis y mo d h mi s 0
    | _, _, _, _, _, _ => none
  | [y1, y2, y3, y4, '-', m1, m2, '-', d1, d2, 'T', h1, h2, ':', n1, n2, ':', s1, s2, '.',
      f1, f2, f3, 'Z'] =>
    match digitsValue [y1, y2, y3, y4], digitsValue [m1, m2], digitsValue [d1, d2],
      digitsValue [h1, h2], digitsValue [n1, n2], digitsValue [s1, s2],
      digitsValue [f1, f2, f3] with
    | some y, some mo, some d, some h, some mi, some s, some ms => utcMillis y mo d h mi s ms
    | _, _, _, _, _, _, _ => none
  | _ => none

/-! ## Documents and the database -/

/-- A document of the `Vehicle` collection. -/
structure Vehicle where
  _id : ObjectId
  name : String
  capacityKg : Int
  tyres : Int
deriving DecidableEq, Repr

/-- A document of the `Booking` collection. -/
structure Booking where
  _id : ObjectId
  vehicleId : ObjectId
  fromPincode : String
  toPincode : String
  startTime : Int
  endTime : Int
  customerId : String
  estimatedRideDurationHours : Int
deriving DecidableEq, Repr

/-- The database: both collections in insertion order and the identifier the
next saved document receives. -/
structure Store where
  vehicles : List Vehicle
  bookings : List Booking
  nextId : ObjectId
deriving DecidableEq, Repr

/-- The database before any request. -/
def Store.empty : Store := { vehicles := [], bookings := [], nextId := 0 }

/-- What Mongoose throws: a value that does not cast to the type of its path,
a document that fails validation on `save`, or a query the database did not
serve. -/
inductive Thrown where
  | castError
  | validationError
  /-- The database did not serve the query. -/
  | databaseError
deriving DecidableEq, Repr

/-- Cast to `ObjectId`: the string of exactly 24 hexadecimal digits. -/
def castObjectId : JVal → Except Thrown ObjectId
  | .str s =>
    if s.data.length = 24 then
      match readDigits 16 s.data 0 false with
      | (n, _) => if s.data.all (fun c => (radixDigit 16 c).isSome) then .ok n else .error .castError
    else .error .castError
  | _ => .error .castError

/-- Cast to the `String` type of a schema path. -/
def castString : JVal → Except Thrown String
  | .str s => .ok s
  | .num n => .ok (numeral n)
  | .bool true => .ok "true"
  | .bool false => .ok "false"
  | _ => .error .validationError

/-- Cast to the `Date` type of a schema path: an Invalid Date does not cast. -/
def castDate : JDate → Except Thrown Int
  | some t => .ok t
  | none => .error .castError

/-- Cast to the `Number` type of a schema path: NaN does not cast. -/
def castNumber : JNum → Except Thrown Int
  | some n => .ok n
  | none => .error .castError

/-- The query `Vehicle.findById(id)`. -/
def Vehicle.findById (db : Store) (id : JVal) : Except Thrown (Option Vehicle) := do
  let oid ← castObjectId id
  pure (db.vehicles.find? (fun v => v._id == oid))

/-- The query `Booking.findOne({ vehicleId, $or: [{ startTime: { $lt: lt },
endTime: { $gt: gt } }] })` issued by `createBooking` (lines 31-39) and by
`getAvailableVehicles` (lines 104-112). -/
def Booking.findOne (db : Store) (vehicleId : Except Thrown ObjectId) (lt gt : JDate) :
    Except Thrown (Option Booking) := do
  let vid ← vehicleId
  let lt ← castDate lt
  let gt ← castDate gt
  pure (db.bookings.find? (fun b => b.vehicleId == vid && b.startTime < lt && b.endTime > gt))

/-- Modelled from the spec: the `Booking` schema of `models/Booking.js`, which is
not among the sources. Every path is required; `vehicleId` is an `ObjectId`,
the pincodes and the customer are strings, both instants are dates and the
duration is a number. `new Booking({...})` casts each value and `save()`
rejects the document when a cast failed or a required string is empty. -/
def Booking.create (_id : ObjectId) (vehicleId fromPincode toPincode : JVal)
    (startTime endTime : JDate) (customerId : JVal) (estimatedRideDurationHours : JNum) :
    Except Thrown Booking := do
  let vid ← (castObjectId vehicleId).mapError (fun _ => Thrown.validationError)
  let fromPincode ← castString fromPincode
  let toPincode ← castString toPincode
  let startTime ← (castDate startTime).mapError (fun _ => Thrown.validationError)
  let endTime ← (castDate endTime).mapError (fun _ => Thrown.validationError)
  let customerId ← castString customerId
  let hours ← (castNumber estimatedRideDurationHours).mapError (fun _ => Thrown.validationError)
  if fromPincode.data.isEmpty || toPincode.data.isEmpty || customerId.data.isEmpty then
    .error .validationError
  else
    pure { _id := _id, vehicleId := vid, fromPincode := fromPincode, toPincode := toPincode,
           startTime := startTime, endTime := endTime, customerId := customerId,
           estimatedRideDurationHours := hours }

/-! ## Requests and responses -/

/-- The body of `POST /api/bookings`. -/
structure BookingBody where
  vehicleId : JVal
  fromPincode : JVal
  toPincode : JVal
  startTime : JVal
  customerId : JVal
deriving DecidableEq, Repr

/-- The body of `POST /api/vehicles`. -/
structure VehicleBody where
  name : JVal
  capacityKg : JVal
  tyres : JVal
deriving DecidableEq, Repr

/-- The body of `PUT /api/vehicles/:id`, restricted to updates that set some of
the three schema paths to a value of the schema's type already. -/
structure VehicleUpdate where
  name : Option String
  capacityKg : Option Int
  tyres : Option Int
deriving DecidableEq, Repr

/-- The query string of `GET /api/vehicles/available`. -/
structure AvailabilityQuery where
  capacityRequired : JVal
  fromPincode : JVal
  toPincode : JVal
  startTime : JVal
deriving DecidableEq, Repr

/-- The JSON sent back. -/
inductive Body where
  | null
  | error (error : String)
  | serverError (details : Thrown)
  | message (message : String)
  | vehicle (vehicle : Vehicle)
  | booking (booking : Booking) (vehicleId : Option Vehicle)
  | available (vehicles : List (Vehicle × JNum))
  | vehicleDeleted (message : String) (deletedBookingsCount : Nat)
deriving DecidableEq, Repr

/-- A response: `res.status(status).json(body)`. -/
structure Response where
  status : Nat
  body : Body
deriving DecidableEq, Repr

/-- The `catch` clause shared by all controllers. -/
def serverError (err : Thrown) : Response := { status := 500, body := .serverError err }

/-! ## bookingController.js -/

/-- The handler of `POST /api/bookings`: `createBooking`, in a call all of whose
awaited queries (lines 26, 31, 56 and 59) are served. -/
def createBooking (D : DateParse) (db : Store) (body : BookingBody) : Response × Store :=
  if !body.vehicleId.truthy || !body.fromPincode.truthy || !body.toPincode.truthy ||
      !body.startTime.truthy || !body.customerId.truthy then
    ({ status := 400, body := .error "Missing required fields." }, db)
  else
    -- Calculate ride duration
    let hours := estimatedRideDurationHours body.toPincode body.fromPincode
    let bookingEndTime := endDate (newDate D body.startTime) hours
    -- Check vehicle exists
    match Vehicle.findById db body.vehicleId with
    | .error err => (serverError err, db)
    | .ok none => ({ status := 404, body := .error "Vehicle not found" }, db)
    | .ok (some _) =>
      -- Check for booking conflicts
      match Booking.findOne db (castObjectId body.vehicleId) bookingEndTime
          (newDate D body.startTime) with
      | .error err => (serverError err, db)
      | .ok (some _) =>
        ({ status := 409, body := .error "Vehicle is already booked for this time slot." }, db)
      | .ok none =>
        -- Create booking
        match Booking.create db.nextId body.vehicleId body.fromPincode body.toPincode
            (newDate D body.startTime) bookingEndTime body.customerId hours with
        | .error err => (serverError err, db)
        | .ok booking =>
          let saved : Store := { db with bookings := db.bookings ++ [booking],
                                         nextId := db.nextId + 1 }
          -- Populate the vehicle data before returning
          match saved.bookings.find? (fun b => b._id == booking._id) with
          | none => ({ status := 201, body := .null }, saved)
          | some found =>
            ({ status := 201,
               body := .booking found (saved.vehicles.find? (fun v => v._id == found.vehicleId)) },
             saved)

/-- The handler of `DELETE /api/bookings/:id`: `deleteBooking`. -/
def deleteBooking (db : Store) (id : String) : Response × Store :=
  match castObjectId (.str id) with
  | .error err => (serverError err, db)
  | .ok oid =>
    match db.bookings.find? (fun b => b._id == oid) with
    | none => ({ status := 404, body := .error "Booking not found" }, db)
    | some booking =>
      ({ status := 200, body := .message "Booking cancelled successfully" },
       { db with bookings := db.bookings.erase booking })

/-! ## vehicleController.js -/

/-- The handler of `POST /api/vehicles`: `createVehicle`. -/
def createVehicle (db : Store) (body : VehicleBody) : Response × Store :=
  if !body.name.truthy || !body.name.isString || !body.capacityKg.truthy ||
      !body.capacityKg.isNumber || !body.tyres.truthy || !body.tyres.isNumber then
    ({ status := 400,
       body := .error
        "Invalid input. Name (string), capacityKg (number), and tyres (number) are required." },
     db)
  else
    match body.name, body.capacityKg, body.tyres with
    | .str name, .num capacityKg, .num tyres =>
      if capacityKg < 1 || tyres < 2 then
        ({ status := 400,
           body := .error
            "Invalid input. capacityKg must be at least 1 and tyres must be at least 2." },
         db)
      else
        let vehicle : Vehicle :=
          { _id := db.nextId, name := name, capacityKg := capacityKg, tyres := tyres }
        ({ status := 201, body := .vehicle vehicle },
         { db with vehicles := db.vehicles ++ [vehicle], nextId := db.nextId + 1 })
    | _, _, _ => (serverError .validationError, db)

/-- The effect of `findByIdAndUpdate` on the matched document: the paths named
in the update are set, the others and `_id` are kept. No validator runs. -/
def VehicleUpdate.apply (update : VehicleUpdate) (v : Vehicle) : Vehicle :=
  { v with name := update.name.getD v.name,
           capacityKg := update.capacityKg.getD v.capacityKg,
           tyres := update.tyres.getD v.tyres }

/-- The handler of `PUT /api/vehicles/:id`: `updateVehicle`. -/
def updateVehicle (db : Store) (id : String) (update : VehicleUpdate) : Response × Store :=
  match Vehicle.findById db (.str id) with
  | .error err => (serverError err, db)
  | .ok none => ({ status := 404, body := .error "Vehicle not found" }, db)
  | .ok (some vehicle) =>
    ({ status := 200, body := .vehicle (update.apply vehicle) },
     { db with vehicles := db.vehicles.replace vehicle (update.apply vehicle) })

/-- The loop of `getAvailableVehicles` (lines 102-120) over the vehicles with
sufficient capacity: a vehicle is pushed when its conflict query finds nothing. -/
def availableVehicles (db : Store) (endTime start : JDate) (hours : JNum) :
    List Vehicle → Except Thrown (List (Vehicle × JNum))
  | [] => .ok []
  | vehicle :: vehicles =>
    match Booking.findOne db (.ok vehicle._id) endTime start with
    | .error err => .error err
    | .ok conflict =>
      match availableVehicles db endTime start hours vehicles with
      | .error err => .error err
      | .ok rest => if conflict.isNone then .ok ((vehicle, hours) :: rest) else .ok rest

/-- The handler of `GET /api/vehicles/available`: `getAvailableVehicles`. -/
def getAvailableVehicles (D : DateParse) (db : Store) (query : AvailabilityQuery) :
    Response × Store :=
  if !query.capacityRequired.truthy || !query.fromPincode.truthy || !query.toPincode.truthy ||
      !query.startTime.truthy then
    ({ status := 400,
       body := .error
        "Missing required query parameters: capacityRequired, fromPincode, toPincode, startTime" },
     db)
  else
    -- Calculate ride duration using the simplified formula
    let hours := estimatedRideDurationHours query.toPincode query.fromPincode
    let endTime := endDate (newDate D query.startTime) hours
    -- Find vehicles with sufficient capacity
    match castNumber (parseInt query.capacityRequired) with
    | .error err => (serverError err, db)
    | .ok capacity =>
      let vehicles := db.vehicles.filter (fun v => v.capacityKg ≥ capacity)
      -- Filter out vehicles with conflicting bookings
      match availableVehicles db endTime (newDate D query.startTime) hours vehicles with
      | .error err => (serverError err, db)
      | .ok available => ({ status := 200, body := .available available }, db)

/-- The handler of `DELETE /api/vehicles/:id`: `deleteVehicle`, in a call all of
whose awaited queries (lines 134, 140 and 143) are served. -/
def deleteVehicle (db : Store) (id : String) : Response × Store :=
  -- Check if vehicle exists
  match Vehicle.findById db (.str id) with
  | .error err => (serverError err, db)
  | .ok none => ({ status := 404, body := .error "Vehicle not found" }, db)
  | .ok (some _) =>
    match castObjectId (.str id) with
    | .error err => (serverError err, db)
    | .ok oid =>
      -- Delete all bookings associated with this vehicle
      let deletedCount := (db.bookings.filter (fun b => b.vehicleId == oid)).length
      let bookings := db.bookings.filter (fun b => !(b.vehicleId == oid))
      -- Delete the vehicle
      let vehicles :=
        match db.vehicles.find? (fun v => v._id == oid) with
        | some vehicle => db.vehicles.erase vehicle
        | none => db.vehicles
      ({ status := 200, body := .vehicleDeleted "Vehicle deleted successfully" deletedCount },
       { db with vehicles := vehicles, bookings := bookings })

/-! ## Sequential executions -/

/-- A request to one of the five state-changing or searching routes. -/
inductive Op where
  | createVehicle (body : VehicleBody)
  | updateVehicle (id : String) (update : VehicleUpdate)
  | createBooking (body : BookingBody)
  | deleteBooking (id : String)
  | deleteVehicle (id : String)
  | getAvailableVehicles (query : AvailabilityQuery)
deriving DecidableEq, Repr

/-- Serve one request. -/
def Op.serve (D : DateParse) (db : Store) : Op → Response × Store
  | .createVehicle body => FleetLink.createVehicle db body
  | .updateVehicle id update => FleetLink.updateVehicle db id update
  | .createBooking body => FleetLink.createBooking D db body
  | .deleteBooking id => FleetLink.deleteBooking db id
  | .deleteVehicle id => FleetLink.deleteVehicle db id
  | .getAvailableVehicles query => FleetLink.getAvailableVehicles D db query

/-- The database after serving the requests one after the other, starting from
the empty database. -/
def run (D : DateParse) (ops : List Op) : Store :=
  ops.foldl (fun db op => (op.serve D db).2) Store.empty

/-! ## Await points of `createBooking`

`createBooking` is an `async` function. Between two `await`s it runs without
interruption; at an `await` it is suspended while the database serves the
query, and other requests may be served meanwhile. -/

/-- A call of `createBooking` suspended at one of its `await`s, or finished. -/
inductive Pending where
  /-- At line 26, `await Vehicle.findById(vehicleId)`. -/
  | findVehicle (body : BookingBody)
  /-- At line 31, `await Booking.findOne({...})`. -/
  | findConflict (body : BookingBody)
  /-- At line 56, `await booking.save()`. -/
  | save (body : BookingBody)
  /-- At line 59, `await Booking.findById(booking._id).populate("vehicleId")`. -/
  | populate (booking : Booking)
  /-- After `res.status(...).json(...)`. -/
  | done (res : Response)
deriving DecidableEq, Repr

/-- The call runs from its entry to its first `await`. -/
def Pending.enter (body : BookingBody) : Pending :=
  if !body.vehicleId.truthy || !body.fromPincode.truthy || !body.toPincode.truthy ||
      !body.startTime.truthy || !body.customerId.truthy then
    .done { status := 400, body := .error "Missing required fields." }
  else .findVehicle body

/-- The database serves the awaited query and the call runs on to its next
`await` or to its response. -/
def Pending.resume (D : DateParse) (db : Store) : Pending → Pending × Store
  | .findVehicle body =>
    match Vehicle.findById db body.vehicleId with
    | .error err => (.done (serverError err), db)
    | .ok none => (.done { status := 404, body := .error "Vehicle not found" }, db)
    | .ok (some _) => (.findConflict body, db)
  | .findConflict body =>
    let hours := estimatedRideDurationHours body.toPincode body.fromPincode
    let bookingEndTime := endDate (newDate D body.startTime) hours
    match Booking.findOne db (castObjectId body.vehicleId) bookingEndTime
        (newDate D body.startTime) with
    | .error err => (.done (serverError err), db)
    | .ok (some _) =>
      (.done { status := 409, body := .error "Vehicle is already booked for this time slot." },
       db)
    | .ok none => (.save body, db)
  | .save body =>
    let hours := estimatedRideDurationHours body.toPincode body.fromPincode
    let bookingEndTime := endDate (newDate D body.startTime) hours
    match Booking.create db.nextId body.vehicleId body.fromPincode body.toPincode
        (newDate D body.startTime) bookingEndTime body.customerId hours with
    | .error err => (.done (serverError err), db)
    | .ok booking =>
      (.populate booking,
       { db with bookings := db.bookings ++ [booking], nextId := db.nextId + 1 })
  | .populate booking =>
    match db.bookings.find? (fun b => b._id == booking._id) with
    | none => (.done { status := 201, body := .null }, db)
    | some found =>
      (.done { status := 201,
               body := .booking found (db.vehicles.find? (fun v => v._id == found.vehicleId)) },
       db)
  | .done res => (.done res, db)

/-- Two calls of `createBooking` in flight over one database. -/
structure Race where
  db : Store
  first : Pending
  second : Pending
deriving DecidableEq, Repr

/-- Serve the awaited queries in the order of the schedule: `false` resumes the
first call, `true` the second. -/
def Race.interleave (D : DateParse) : List Bool → Race → Race
  | [], r => r
  | false :: schedule, r =>
    Race.interleave D schedule
      { r with db := (r.first.resume D r.db).2, first := (r.first.resume D r.db).1 }
  | true :: schedule, r =>
    Race.interleave D schedule
      { r with db := (r.second.resume D r.db).2, second := (r.second.resume D r.db).1 }

/-! ## Rejected queries

An awaited query is rejected when the database does not serve it (a lost
connection, a time-out). The exception is caught by the `catch` clause of the
handler, which answers 500. A rejected query is taken to leave the database as
it is, and the queries served before it have had their effect. The handlers
`createBooking` and `deleteVehicle` above are the calls all of whose queries
are served. -/

/-- The response of a call whose awaited query is rejected with `err`: the
`catch` clause answers, unless the call had answered already. -/
def Pending.rejected (err : Thrown) : Pending → Response
  | .done res => res
  | _ => serverError err

/-- The call resumed `served` times. -/
def Pending.serve (D : DateParse) : Nat → Pending × Store → Pending × Store
  | 0, r => r
  | n + 1, r => Pending.serve D n (r.1.resume D r.2)

/-- A call of `createBooking` whose first `served` awaited queries are served (in
the order of lines 26, 31, 56 and 59) and whose next awaited query, if there is
one, is rejected with `err`. -/
def createBookingRejecting (D : DateParse) (db : Store) (body : BookingBody) (served : Nat)
    (err : Thrown) : Response × Store :=
  ((Pending.serve D served (Pending.enter body, db)).1.rejected err,
   (Pending.serve D served (Pending.enter body, db)).2)

/-- A call of `deleteVehicle` whose first `served` awaited queries are served (in
the order of lines 134, 140 and 143) and whose next awaited query, if there is
one, is rejected with `err`. -/
def deleteVehicleRejecting (db : Store) (id : String) (served : Nat) (err : Thrown) :
    Response × Store :=
  -- Check if vehicle exists
  if served = 0 then (serverError err, db)
  else
    match Vehicle.findById db (.str id) with
    | .error e => (serverError e, db)
    | .ok none => ({ status := 404, body := .error "Vehicle not found" }, db)
    | .ok (some _) =>
      -- Delete all bookings associated with this vehicle
      if served = 1 then (serverError err, db)
      else
        match castObjectId (.str id) with
        | .error e => (serverError e, db)
        | .ok oid =>
          let deletedCount := (db.bookings.filter (fun b => b.vehicleId == oid)).length
          let bookings := db.bookings.filter (fun b => !(b.vehicleId == oid))
          -- Delete the vehicle
          if served = 2 then (serverError err, { db with bookings := bookings })
          else
            let vehicles :=
              match db.vehicles.find? (fun v => v._id == oid) with
              | some vehicle => db.vehicles.erase vehicle
              | none => db.vehicles
            ({ status := 200,
               body := .vehicleDeleted "Vehicle deleted successfully" deletedCount },
             { db with vehicles := vehicles, bookings := bookings })

/-- The state of a call of `createBooking` on `db` is consistent: before the
save the database is `db`, after it the database is `db` with one more booking,
and a call that has answered has stored the booking exactly when it answered 201. -/
def Pending.Consistent (db : Store) (r : Pending × Store) : Prop :=
  match r.1 with
  | .findVehicle _ => r.2 = db
  | .findConflict _ => r.2 = db
  | .save _ => r.2 = db
  | .populate _ =>
    ∃ b, r.2 = { db with bookings := db.bookings ++ [b], nextId := db.nextId + 1 }
  | .done res =>
    (r.2 = db ∧ res.status ≠ 201) ∨
      (res.status = 201 ∧
        ∃ b, r.2 = { db with bookings := db.bookings ++ [b], nextId := db.nextId + 1 })

/-! ## Vocabulary of the specification -/

/-- The half-open overlap test of a stored booking against the window `[start, e)`. -/
def overlaps (b : Booking) (start e : Int) : Prop := b.startTime < e ∧ start < b.endTime

instance (b : Booking) (start e : Int) : Decidable (overlaps b start e) := by
  unfold overlaps; infer_instance

/-- Two bookings occupy overlapping half-open intervals. -/
def Booking.overlap (a b : Booking) : Prop :=
  a.startTime < b.endTime ∧ b.startTime < a.endTime

instance (a b : Booking) : Decidable (Booking.overlap a b) := by
  unfold Booking.overlap; infer_instance

/-- No two distinct stored bookings of one vehicle overlap. Distinct bookings
are bookings at distinct positions of the collection. -/
def NoOverlap (db : Store) : Prop :=
  ∀ i j : Fin db.bookings.length, i ≠ j →
    (db.bookings.get i).vehicleId = (db.bookings.get j).vehicleId →
    ¬ Booking.overlap (db.bookings.get i) (db.bookings.get j)

/-- The relation kept pairwise by the bookings of a database without overlap. -/
def Compatible (a b : Booking) : Prop := a.vehicleId = b.vehicleId → ¬ Booking.overlap a b

/-- The vehicle has no stored booking overlapping the window `[start, e)`. -/
def Store.free (db : Store) (vid : ObjectId) (start e : Int) : Prop :=
  ∀ c ∈ db.bookings, c.vehicleId = vid → ¬ overlaps c start e

instance (db : Store) (vid : ObjectId) (start e : Int) : Decidable (db.free vid start e) := by
  unfold Store.free; infer_instance

/-- A field that is absent (`undefined`), `null` or the empty string. -/
def JVal.missing (v : JVal) : Prop := v = .undefined ∨ v = .null ∨ v = .str ""

/-- A well-formed booking request: every field is present, the vehicle
identifier is the `ObjectId` `vid`, both pincodes are numeric so that the
estimated duration is the number `hours`, the start time is the valid instant
`start`, and the end of the window, `hours` hours later, is a valid instant. -/
structure BookingBody.WellFormed (D : DateParse) (body : BookingBody) (vid : ObjectId)
    (start hours : Int) : Prop where
  present : body.vehicleId.truthy = true ∧ body.fromPincode.truthy = true ∧
    body.toPincode.truthy = true ∧ body.startTime.truthy = true ∧
    body.customerId.truthy = true
  vehicleId_ok : castObjectId body.vehicleId = .ok vid
  hours_ok : estimatedRideDurationHours body.toPincode body.fromPincode = some hours
  start_ok : newDate D body.startTime = some start
  window_ok : endDate (some start) (some hours) = some (start + hours * 3600000)

/-- A well-formed availability query: every parameter is present, the capacity
is the number `capacity`, the pincodes give the duration `hours`, the start
time is the valid instant `start` and so is the end of the window. -/
structure AvailabilityQuery.WellFormed (D : DateParse) (query : AvailabilityQuery)
    (capacity start hours : Int) : Prop where
  present : query.capacityRequired.truthy = true ∧ query.fromPincode.truthy = true ∧
    query.toPincode.truthy = true ∧ query.startTime.truthy = true
  capacity_ok : parseInt query.capacityRequired = some capacity
  hours_ok : estimatedRideDurationHours query.toPincode query.fromPincode = some hours
  start_ok : newDate D query.startTime = some start
  window_ok : endDate (some start) (some hours) = some (start + hours * 3600000)

/-- The vehicles listed by a response of `getAvailableVehicles`. -/
def Response.available (res : Response) : List (Vehicle × JNum) :=
  match res.body with
  | .available vehicles => vehicles
  | _ => []

/-- What a successful `createBooking` stored: the new document `b`, appended to
the bookings, built from the request as the controller prescribes. -/
structure Created (D : DateParse) (db : Store) (body : BookingBody) (b : Booking) : Prop where
  store : (createBooking D db body).2 =
    { db with bookings := db.bookings ++ [b], nextId := db.nextId + 1 }
  status : (createBooking D db body).1.status = 201
  id : b._id = db.nextId
  vehicleId : castObjectId body.vehicleId = .ok b.vehicleId
  vehicle : ∃ v, db.vehicles.find? (fun v => v._id == b.vehicleId) = some v
  startTime : newDate D body.startTime = some b.startTime
  hours : estimatedRideDurationHours body.toPincode body.fromPincode =
    some b.estimatedRideDurationHours
  endTime : b.endTime = b.startTime + b.estimatedRideDurationHours * 3600000
  fromPincode : castString body.fromPincode = .ok b.fromPincode
  toPincode : castString body.toPincode = .ok b.toPincode
  customerId : castString body.customerId = .ok b.customerId
  free : ∀ c ∈ db.bookings, c.vehicleId = b.vehicleId → ¬ overlaps c b.startTime b.endTime
  window : endDate (newDate D body.startTime)
    (estimatedRideDurationHours body.toPincode body.fromPincode) = some b.endTime
  present : body.vehicleId.truthy = true ∧ body.fromPincode.truthy = true ∧
    body.toPincode.truthy = true ∧ body.startTime.truthy = true ∧
    body.customerId.truthy = true

/-! ## Scenarios of the test-suite -/

/-- The vehicle registered by `booking.test.js` before each test. -/
def testTruck : VehicleBody :=
  { name := .str "Test Truck", capacityKg := .num 1000, tyres := .num 6 }

/-- The database holding the test vehicle only; its identifier is `0`. -/
def testDb : Store := run isoDateParse [.createVehicle testTruck]

/-- The request of "should create a booking with valid data". -/
def testBooking : BookingBody :=
  { vehicleId := .str "000000000000000000000000", fromPincode := .str "110001",
    toPincode := .str "110020", startTime := .str "2023-10-27T10:00:00Z",
    customerId := .str "customer123" }

/-- The database after the test booking, which spans 10:00 to 05:00 the next day. -/
def bookedDb : Store := (createBooking isoDateParse testDb testBooking).2

/-- The stored test booking. -/
def storedBooking : Booking :=
  { _id := 1, vehicleId := 0, fromPincode := "110001", toPincode := "110020",
    startTime := 1698400800000, endTime := 1698469200000, customerId := "customer123",
    estimatedRideDurationHours := 19 }

/-- The second request of "should detect booking conflicts", starting at 15:00. -/
def conflictingBooking : BookingBody :=
  { testBooking with startTime := .str "2023-10-27T15:00:00Z", customerId := .str "customer456" }

/-- A request that starts when the test booking ends. -/
def backToBackBooking : BookingBody :=
  { testBooking with startTime := .str "2023-10-28T05:00:00Z" }

/-- A request of duration zero that starts when the test booking starts. -/
def emptyWindowBooking : BookingBody :=
  { testBooking with toPincode := .str "110001" }

/-- An availability query for the window of the test booking. -/
def testQuery : AvailabilityQuery :=
  { capacityRequired := .str "500", fromPincode := .str "110001", toPincode := .str "110020",
    startTime := .str "2023-10-27T10:00:00Z" }

/-- Every character of the list is a decimal digit. -/
def AllDigits (l : List Char) : Prop := ∀ c ∈ l, ∃ d, d < 10 ∧ c = digitChar d

/-- The call resumed four times, once for each `await` of `createBooking`. -/
def Pending.finish (D : DateParse) (db : Store) (p : Pending) : Pending × Store :=
  let r1 := p.resume D db
  let r2 := r1.1.resume D r1.2
  let r3 := r2.1.resume D r2.2
  r3.1.resume D r3.2

/-- The schedule that serves the first call to its end and then the second. -/
def oneAfterTheOther : List Bool := [false, false, false, false, true, true, true, true]

/-- The schedule in which both calls pass the vehicle lookup and the conflict
query before either of them saves. -/
def checksBeforeSaves : List Bool := [false, false, true, true, false, true, false, true]

/-- The two requests of "should detect booking conflicts", in flight together
over the database that holds the test vehicle and no booking. -/
def testRace : Race :=
  { db := testDb, first := .enter testBooking, second := .enter conflictingBooking }

/-- The stored test vehicle. -/
def testVehicle : Vehicle := { _id := 0, name := "Test Truck", capacityKg := 1000, tyres := 6 }

/-- The second booking stored when the two test requests race. -/
def racedBooking : Booking :=
  { _id := 2, vehicleId := 0, fromPincode := "110001", toPincode := "110020",
    startTime := 1698418800000, endTime := 1698487200000, customerId := "customer456",
    estimatedRideDurationHours := 19 }

/-- The request of "should fail with non-existent vehicle". -/
def unknownVehicleBooking : BookingBody :=
  { testBooking with vehicleId := .str "507f1f77bcf86cd799439011" }

/-- The test request with the origin code `abc`. -/
def nonNumericBooking : BookingBody :=
  { testBooking with fromPincode := .str "abc" }

/-- The test request with the origin code `12ab34`. -/
def digitsThenLettersBooking : BookingBody :=
  { testBooking with fromPincode := .str "12ab34" }

/-- The test query with the destination code `abc`. -/
def nonNumericQuery : AvailabilityQuery :=
  { testQuery with toPincode := .str "abc" }

/-- The fleet of "should get all vehicles". -/
def truck1 : VehicleBody :=
  { name := .str "Truck 1", capacityKg := .num 1000, tyres := .num 6 }

/-- The second vehicle of that fleet. -/
def truck2 : VehicleBody :=
  { name := .str "Truck 2", capacityKg := .num 1500, tyres := .num 8 }

/-- A fleet of two vehicles, the first of which holds the test booking. -/
def fleetDb : Store :=
  run isoDateParse [.createVehicle truck1, .createVehicle truck2, .createBooking testBooking]

/-- The query of "should exclude vehicles with conflicting bookings", at 12:00. -/
def noonQuery : AvailabilityQuery :=
  { testQuery with startTime := .str "2023-10-27T12:00:00Z" }

/-- The test request with a vehicle identifier that is not an `ObjectId`. -/
def malformedIdBooking : BookingBody :=
  { testBooking with vehicleId := .str "not-an-id" }

/-- The test request with a start time that is not a date. -/
def unparseableStartBooking : BookingBody :=
  { testBooking with startTime := .str "tomorrow" }

/-- The test query with a start time that is not a date. -/
def unparseableStartQuery : AvailabilityQuery :=
  { testQuery with startTime := .str "tomorrow" }

/-- A registration body is valid: the name is a non-empty string, `capacityKg`
a number that is at least 1 and `tyres` a number that is at least 2. -/
def VehicleBody.Valid (body : VehicleBody) (name : String) (capacityKg tyres : Int) : Prop :=
  body.name = .str name ∧ body.capacityKg = .num capacityKg ∧ body.tyres = .num tyres ∧
    name ≠ "" ∧ 1 ≤ capacityKg ∧ 2 ≤ tyres

/-- The data invariant of a vehicle document: a non-empty name, a capacity of
at least 1 and at least 2 tyres. -/
def Vehicle.Sound (v : Vehicle) : Prop := v.name ≠ "" ∧ 1 ≤ v.capacityKg ∧ 2 ≤ v.tyres

instance (v : Vehicle) : Decidable v.Sound := by
  unfold Vehicle.Sound; infer_instance

/-- An update body that sets the capacity to zero: `{ "capacityKg": 0 }`. -/
def zeroCapacity : VehicleUpdate := { name := none, capacityKg := some 0, tyres := none }

/-- Every stored booking refers to a stored vehicle. -/
def Referential (db : Store) : Prop :=
  ∀ b ∈ db.bookings, ∃ v ∈ db.vehicles, v._id = b.vehicleId

/-- The availability query with a different required capacity. -/
def AvailabilityQuery.withCapacity (query : AvailabilityQuery) (capacityRequired : JVal) :
    AvailabilityQuery :=
  { query with capacityRequired := capacityRequired }

/-- The database holding the test vehicle and a booking of another vehicle, one
that is not stored, over the window of the test booking. -/
def otherVehicleDb : Store :=
  { testDb with bookings := [{ storedBooking with vehicleId := 7 }] }

/-- The database after the empty-window request on the database that holds the
test vehicle only. -/
def emptyWindowDb : Store := (createBooking isoDateParse testDb emptyWindowBooking).2

/-- The test query asking for a capacity of 1200. -/
def heavyQuery : AvailabilityQuery := testQuery.withCapacity (.str "1200")

/-- Every stored booking has an identifier below the next one to be given out. -/
def FreshIds (db : Store) : Prop := ∀ c ∈ db.bookings, c._id < db.nextId

/-! # Theorems -/

/-! ## Basic facts about the run time -/

theorem timeClip_eq_some {t : JNum} {u : Int} (h : timeClip t = some u) : t = some u := by
  unfold timeClip at h
  split at h
  · split at h
    · simpa using h
    · simp at h
  · simp at h

theorem endDate_eq_some {start : JDate} {hours : JNum} {e : Int}
    (h : endDate start hours = some e) :
    ∃ t d, start = some t ∧ hours = some d ∧ e = t + d * 3600000 := by
  unfold endDate at h
  split at h
  · rename_i t d
    have := timeClip_eq_some h
    refine ⟨t, d, rfl, rfl, ?_⟩
    simp at this
    omega
  · simp at h

theorem castDate_eq_ok {d : JDate} {t : Int} (h : castDate d = .ok t) : d = some t := by
  cases d <;> simp [castDate] at h ⊢
  exact h

theorem estimatedRideDurationHours_range {a b : JVal} {d : Int}
    (h : estimatedRideDurationHours a b = some d) : 0 ≤ d ∧ d ≤ 23 := by
  unfold estimatedRideDurationHours at h
  split at h
  · rename_i t f _ _
    simp at h
    subst h
    have h0 : (0 : Int) ≤ |t - f| := abs_nonneg _
    rw [Int.tmod_eq_emod h0 (by decide)]
    constructor
    · exact Int.emod_nonneg _ (by decide)
    · have := Int.emod_lt_of_pos (|t - f|) (show (0 : Int) < 24 by decide)
      omega
  · simp at h


theorem Booking.findOne_ok {db : Store} {vid : ObjectId} {e t : Int} :
    Booking.findOne db (.ok vid) (some e) (some t) =
      .ok (db.bookings.find? (fun b => b.vehicleId == vid && b.startTime < e && b.endTime > t)) := by
  rfl

theorem Booking.findOne_eq_ok {db : Store} {vehicleId : Except Thrown ObjectId} {lt gt : JDate}
    {r : Option Booking} (h : Booking.findOne db vehicleId lt gt = .ok r) :
    ∃ vid e t, vehicleId = .ok vid ∧ lt = some e ∧ gt = some t ∧
      r = db.bookings.find? (fun b => b.vehicleId == vid && b.startTime < e && b.endTime > t) := by
  cases vehicleId with
  | error err => simp [Booking.findOne, bind, Except.bind] at h
  | ok vid =>
    cases lt with
    | none => simp [Booking.findOne, bind, Except.bind, castDate] at h
    | some e =>
      cases gt with
      | none => simp [Booking.findOne, bind, Except.bind, castDate] at h
      | some t =>
        refine ⟨vid, e, t, rfl, rfl, rfl, ?_⟩
        rw [Booking.findOne_ok] at h
        injection h with h
        exact h.symm

theorem find?_conflict_none {db : Store} {vid : ObjectId} {e t : Int} :
    db.bookings.find? (fun b => b.vehicleId == vid && b.startTime < e && b.endTime > t) = none ↔
      ∀ c ∈ db.bookings, c.vehicleId = vid → ¬ overlaps c t e := by
  simp only [List.find?_eq_none, overlaps]
  constructor
  · intro h c hc hv hov
    apply h c hc
    simp [hv, hov.1, hov.2]
  · intro h c hc hp
    simp at hp
    exact h c hc hp.1.1 ⟨hp.1.2, hp.2⟩

theorem find?_conflict_some {db : Store} {vid : ObjectId} {e t : Int} {c : Booking}
    (h : db.bookings.find? (fun b => b.vehicleId == vid && b.startTime < e && b.endTime > t)
      = some c) :
    c ∈ db.bookings ∧ c.vehicleId = vid ∧ overlaps c t e := by
  have hm := List.mem_of_find?_eq_some h
  have hp := List.find?_some h
  simp at hp
  exact ⟨hm, hp.1.1, hp.1.2, hp.2⟩


theorem Booking.create_eq_ok {i : ObjectId} {v f t c : JVal} {s e : JDate} {h : JNum}
    {b : Booking} (hb : Booking.create i v f t s e c h = .ok b) :
    b._id = i ∧ castObjectId v = .ok b.vehicleId ∧ castString f = .ok b.fromPincode ∧
      castString t = .ok b.toPincode ∧ s = some b.startTime ∧ e = some b.endTime ∧
      castString c = .ok b.customerId ∧ h = some b.estimatedRideDurationHours := by
  unfold Booking.create at hb
  cases hv : castObjectId v with
  | error err => simp [hv, bind, Except.bind, Except.mapError] at hb
  | ok vid =>
  cases hf : castString f with
  | error err => simp [hv, hf, bind, Except.bind, Except.mapError] at hb
  | ok fp =>
  cases ht : castString t with
  | error err => simp [hv, hf, ht, bind, Except.bind, Except.mapError] at hb
  | ok tp =>
  cases s with
  | none => simp [hv, hf, ht, castDate, bind, Except.bind, Except.mapError] at hb
  | some st =>
  cases e with
  | none => simp [hv, hf, ht, castDate, bind, Except.bind, Except.mapError] at hb
  | some en =>
  cases hc : castString c with
  | error err => simp [hv, hf, ht, hc, castDate, bind, Except.bind, Except.mapError] at hb
  | ok cid =>
  cases h with
  | none => simp [hv, hf, ht, hc, castDate, castNumber, bind, Except.bind, Except.mapError] at hb
  | some hr =>
    simp only [hv, hf, ht, hc, castDate, castNumber, bind, Except.bind, Except.mapError, pure,
      Except.pure] at hb
    split at hb
    · simp at hb
    · injection hb with hb
      subst hb
      simp

/-- Every call of `createBooking` either leaves the database as it was and
answers with a status other than 201, or stores one booking. -/
theorem createBooking_cases (D : DateParse) (db : Store) (body : BookingBody) :
    ((createBooking D db body).2 = db ∧ (createBooking D db body).1.status ≠ 201) ∨
      ∃ b, Created D db body b := by
  by_cases hmiss : (!body.vehicleId.truthy || !body.fromPincode.truthy ||
      !body.toPincode.truthy || !body.startTime.truthy || !body.customerId.truthy) = true
  · left; simp [createBooking, hmiss]
  cases hv : Vehicle.findById db body.vehicleId with
  | error err => left; simp [createBooking, hmiss, hv, serverError]
  | ok found =>
  cases found with
  | none => left; simp [createBooking, hmiss, hv]
  | some v =>
  cases hfree : Booking.findOne db (castObjectId body.vehicleId)
      (endDate (newDate D body.startTime)
        (estimatedRideDurationHours body.toPincode body.fromPincode))
      (newDate D body.startTime) with
  | error err => left; simp [createBooking, hmiss, hv, hfree, serverError]
  | ok conflict =>
  cases conflict with
  | some c => left; simp [createBooking, hmiss, hv, hfree]
  | none =>
  cases hb : Booking.create db.nextId body.vehicleId body.fromPincode body.toPincode
      (newDate D body.startTime)
      (endDate (newDate D body.startTime)
        (estimatedRideDurationHours body.toPincode body.fromPincode))
      body.customerId (estimatedRideDurationHours body.toPincode body.fromPincode) with
  | error err => left; simp [createBooking, hmiss, hv, hfree, hb, serverError]
  | ok b =>
    right
    refine ⟨b, ?_⟩
    obtain ⟨hid, hvid, hfp, htp, hst, hen, hcid, hhr⟩ := Booking.create_eq_ok hb
    obtain ⟨vid, e, t, hvid', he, ht, hnone⟩ := Booking.findOne_eq_ok hfree
    obtain ⟨t', d', ht', hd', hend⟩ := endDate_eq_some hen
    rw [hvid] at hvid'
    injection hvid' with hvid'
    rw [hst] at ht ht'
    injection ht with ht
    injection ht' with ht'
    rw [hen] at he
    injection he with he
    rw [hhr] at hd'
    injection hd' with hd'
    subst hvid' ht he ht' hd'
    have hveh : db.vehicles.find? (fun v => v._id == b.vehicleId) = some v := by
      simpa [Vehicle.findById, hvid, bind, Except.bind, pure, Except.pure] using hv
    refine ⟨?_, ?_, hid, hvid, ⟨v, hveh⟩, hst, hhr, hend, hfp, htp, hcid, ?_, hen, ?_⟩
    · simp only [createBooking, hmiss, hv, hfree, hb, Bool.false_eq_true, ↓reduceIte]
      split <;> rfl
    · simp only [createBooking, hmiss, hv, hfree, hb, Bool.false_eq_true, ↓reduceIte]
      split <;> rfl
    · exact find?_conflict_none.mp hnone.symm
    · simp only [Bool.or_eq_true, Bool.not_eq_true', not_or, Bool.not_eq_false] at hmiss
      exact ⟨hmiss.1.1.1.1, hmiss.1.1.1.2, hmiss.1.1.2, hmiss.1.2, hmiss.2⟩


/-! ## The no-overlap invariant -/

theorem Compatible.symm {a b : Booking} (h : Compatible a b) : Compatible b a := by
  intro hv ho
  exact h hv.symm ⟨ho.2, ho.1⟩

theorem noOverlap_iff_pairwise (db : Store) :
    NoOverlap db ↔ db.bookings.Pairwise Compatible := by
  rw [List.pairwise_iff_get]
  constructor
  · intro h i j hij
    exact h i j (Fin.ne_of_lt hij)
  · intro h i j hij
    rcases lt_or_gt_of_ne hij with hlt | hgt
    · exact h i j hlt
    · exact (h j i hgt).symm

theorem createVehicle_bookings (db : Store) (body : VehicleBody) :
    (createVehicle db body).2.bookings = db.bookings := by
  unfold createVehicle
  split
  · rfl
  · split
    · split <;> rfl
    · rfl

theorem updateVehicle_bookings (db : Store) (id : String) (update : VehicleUpdate) :
    (updateVehicle db id update).2.bookings = db.bookings := by
  unfold updateVehicle
  split <;> rfl

theorem getAvailableVehicles_store (D : DateParse) (db : Store) (query : AvailabilityQuery) :
    (getAvailableVehicles D db query).2 = db := by
  unfold getAvailableVehicles
  split
  · rfl
  · dsimp only
    split
    · rfl
    · split <;> rfl

theorem deleteBooking_sublist (db : Store) (id : String) :
    (deleteBooking db id).2.bookings.Sublist db.bookings := by
  unfold deleteBooking
  split
  · exact List.Sublist.refl _
  · split
    · exact List.Sublist.refl _
    · exact List.erase_sublist _ _

theorem deleteVehicle_sublist (db : Store) (id : String) :
    (deleteVehicle db id).2.bookings.Sublist db.bookings := by
  unfold deleteVehicle
  split
  · exact List.Sublist.refl _
  · exact List.Sublist.refl _
  · split
    · exact List.Sublist.refl _
    · exact List.filter_sublist _

theorem serve_pairwise (D : DateParse) (db : Store) (op : Op)
    (h : db.bookings.Pairwise Compatible) : (op.serve D db).2.bookings.Pairwise Compatible := by
  cases op with
  | createVehicle body => simpa [Op.serve, createVehicle_bookings] using h
  | updateVehicle id update => simpa [Op.serve, updateVehicle_bookings] using h
  | createBooking body =>
    rcases createBooking_cases D db body with ⟨hs, _⟩ | ⟨b, hb⟩
    · simpa [Op.serve, hs] using h
    · simp only [Op.serve, hb.store]
      rw [List.pairwise_append]
      refine ⟨h, List.pairwise_singleton _ _, ?_⟩
      intro c hc b' hb'
      rw [List.mem_singleton] at hb'
      subst hb'
      intro hv ho
      exact hb.free c hc hv ⟨ho.1, ho.2⟩
  | deleteBooking id => exact h.sublist (deleteBooking_sublist db id)
  | deleteVehicle id => exact h.sublist (deleteVehicle_sublist db id)
  | getAvailableVehicles query => simpa [Op.serve, getAvailableVehicles_store] using h

theorem run_pairwise (D : DateParse) (ops : List Op) :
    (run D ops).bookings.Pairwise Compatible := by
  unfold run
  have key : ∀ (ops : List Op) (db : Store), db.bookings.Pairwise Compatible →
      (ops.foldl (fun db op => (op.serve D db).2) db).bookings.Pairwise Compatible := by
    intro ops
    induction ops with
    | nil => intro db h; exact h
    | cons op ops ih => intro db h; exact ih _ (serve_pairwise D db op h)
  exact key ops Store.empty List.Pairwise.nil

/-- C1. In the database reached from the empty one by any sequence of
`createVehicle`, `updateVehicle`, `createBooking`, `deleteBooking` and
`deleteVehicle` requests served one after the other (availability searches may
be mixed in), no two distinct stored bookings of the same vehicle satisfy
`A.startTime < B.endTime` and `B.startTime < A.endTime`. Each prefix of the
sequence is such a sequence, so the invariant holds after every successful
`createBooking`. -/
theorem noOverlap_run (D : DateParse) (ops : List Op) : NoOverlap (run D ops) :=
  (noOverlap_iff_pairwise _).mpr (run_pairwise D ops)


theorem decimalAux_ne_nil (fuel n : Nat) (acc : List Char) (h : acc ≠ []) :
    decimalAux fuel n acc ≠ [] := by
  induction fuel generalizing n acc with
  | zero => simpa [decimalAux] using h
  | succ fuel ih =>
    unfold decimalAux
    split
    · simp
    · exact ih _ _ (by simp)

theorem decimal_ne_nil (n : Nat) : decimal n ≠ [] := by
  unfold decimal decimalAux
  split
  · simp
  · exact decimalAux_ne_nil _ _ _ (by simp)

theorem numeral_data_ne_nil (n : Int) : (numeral n).data ≠ [] := by
  unfold numeral
  split
  · simp
  · simpa using decimal_ne_nil _

theorem castString_of_truthy {v : JVal} (h : v.truthy = true) :
    ∃ s, castString v = .ok s ∧ s.data.isEmpty = false := by
  cases v with
  | undefined => simp [JVal.truthy] at h
  | null => simp [JVal.truthy] at h
  | bool b =>
    cases b with
    | false => simp [JVal.truthy] at h
    | true => exact ⟨"true", rfl, by decide⟩
  | num n =>
    refine ⟨numeral n, rfl, ?_⟩
    have := numeral_data_ne_nil n
    cases hd : (numeral n).data with
    | nil => exact absurd hd this
    | cons c cs => rfl
  | str s =>
    refine ⟨s, rfl, ?_⟩
    simpa [JVal.truthy] using h

theorem create_ok_of_wellFormed {D : DateParse} {body : BookingBody} {vid : ObjectId}
    {start hours : Int} (hw : body.WellFormed D vid start hours) (i : ObjectId) :
    ∃ b, Booking.create i body.vehicleId body.fromPincode body.toPincode
      (newDate D body.startTime)
      (endDate (newDate D body.startTime)
        (estimatedRideDurationHours body.toPincode body.fromPincode))
      body.customerId (estimatedRideDurationHours body.toPincode body.fromPincode) = .ok b := by
  obtain ⟨fp, hfp, hfpn⟩ := castString_of_truthy hw.present.2.1
  obtain ⟨tp, htp, htpn⟩ := castString_of_truthy hw.present.2.2.1
  obtain ⟨cid, hcid, hcidn⟩ := castString_of_truthy hw.present.2.2.2.2
  simp [Booking.create, hw.vehicleId_ok, hw.hours_ok, hw.start_ok, hw.window_ok, hfp, htp, hcid, hfpn, htpn,
    hcidn, castDate, castNumber, bind, Except.bind, Except.mapError, pure, Except.pure]

/-- On a well-formed request for a stored vehicle `createBooking` answers 409
when the conflict query finds a booking and stores the booking otherwise. -/
theorem createBooking_wellFormed {D : DateParse} {db : Store} {body : BookingBody}
    {vid : ObjectId} {start hours : Int} (hw : body.WellFormed D vid start hours)
    {v : Vehicle} (hv : db.vehicles.find? (fun v => v._id == vid) = some v) :
    ((∃ c ∈ db.bookings, c.vehicleId = vid ∧ overlaps c start (start + hours * 3600000)) ∧
        createBooking D db body =
          ({ status := 409, body := .error "Vehicle is already booked for this time slot." },
            db)) ∨
      ((∀ c ∈ db.bookings, c.vehicleId = vid → ¬ overlaps c start (start + hours * 3600000)) ∧
        ∃ b, Created D db body b) := by
  have hmiss : ¬ (!body.vehicleId.truthy || !body.fromPincode.truthy ||
      !body.toPincode.truthy || !body.startTime.truthy || !body.customerId.truthy) = true := by
    simp [hw.present.1, hw.present.2.1, hw.present.2.2.1, hw.present.2.2.2.1,
      hw.present.2.2.2.2]
  have hfind : Vehicle.findById db body.vehicleId = .ok (some v) := by
    simp [Vehicle.findById, hw.vehicleId_ok, bind, Except.bind, pure, Except.pure, hv]
  have hq : Booking.findOne db (castObjectId body.vehicleId)
      (endDate (newDate D body.startTime)
        (estimatedRideDurationHours body.toPincode body.fromPincode))
      (newDate D body.startTime) =
      .ok (db.bookings.find? (fun b => b.vehicleId == vid &&
        b.startTime < start + hours * 3600000 && b.endTime > start)) := by
    rw [hw.vehicleId_ok, hw.hours_ok, hw.start_ok, hw.window_ok]
    rfl
  cases hc : db.bookings.find? (fun b => b.vehicleId == vid &&
      b.startTime < start + hours * 3600000 && b.endTime > start) with
  | some c =>
    left
    obtain ⟨hm, hcv, hco⟩ := find?_conflict_some hc
    refine ⟨⟨c, hm, hcv, hco⟩, ?_⟩
    simp only [createBooking, hmiss, hfind, hq, hc, Bool.false_eq_true, ↓reduceIte]
  | none =>
    right
    refine ⟨find?_conflict_none.mp hc, ?_⟩
    rcases createBooking_cases D db body with ⟨_, hne⟩ | hb
    · exfalso
      apply hne
      obtain ⟨b, hb⟩ := create_ok_of_wellFormed hw db.nextId
      simp only [createBooking, hmiss, hfind, hq, hc, hb, Bool.false_eq_true, ↓reduceIte]
      split <;> rfl
    · exact hb


theorem availableVehicles_ok (db : Store) (e t : Int) (hours : JNum) (vehicles : List Vehicle) :
    availableVehicles db (some e) (some t) hours vehicles =
      .ok ((vehicles.filter (fun v => decide (db.free v._id t e))).map (fun v => (v, hours))) := by
  induction vehicles with
  | nil => rfl
  | cons v vs ih =>
    unfold availableVehicles
    rw [Booking.findOne_ok, ih]
    dsimp only
    by_cases hf : db.free v._id t e
    · have hnone := find?_conflict_none.mpr hf
      simp [hnone, hf]
    · have hsome : (db.bookings.find? (fun b => b.vehicleId == v._id && b.startTime < e &&
          b.endTime > t)).isNone = false := by
        cases hc : db.bookings.find? (fun b => b.vehicleId == v._id && b.startTime < e &&
          b.endTime > t) with
        | none => exact absurd (find?_conflict_none.mp hc) hf
        | some c => rfl
      simp [hsome, hf]

/-- On a well-formed query `getAvailableVehicles` answers 200 with the stored
vehicles of sufficient capacity that are free during the window, in stored
order, each with the estimated duration. -/
theorem getAvailableVehicles_wellFormed {D : DateParse} {query : AvailabilityQuery}
    {capacity start hours : Int} (hq : query.WellFormed D capacity start hours) (db : Store) :
    getAvailableVehicles D db query =
      ({ status := 200,
         body := .available
          (((db.vehicles.filter (fun v => v.capacityKg ≥ capacity)).filter
            (fun v => decide (db.free v._id start (start + hours * 3600000)))).map
            (fun v => (v, some hours))) }, db) := by
  have hmiss : ¬ (!query.capacityRequired.truthy || !query.fromPincode.truthy ||
      !query.toPincode.truthy || !query.startTime.truthy) = true := by
    simp [hq.present.1, hq.present.2.1, hq.present.2.2.1, hq.present.2.2.2]
  simp only [getAvailableVehicles, hmiss, Bool.false_eq_true, ↓reduceIte, hq.capacity_ok,
    hq.hours_ok, hq.start_ok, hq.window_ok, castNumber, availableVehicles_ok]


/-! ## Conflict detection -/

/-- C3. For a well-formed request on a stored vehicle, `createBooking` answers
409 exactly when some stored booking `B` of that vehicle has
`B.startTime < candidateEnd` and `candidateStart < B.endTime`, the candidate end
being the start plus the estimated duration in hours; and on a well-formed
query `getAvailableVehicles` lists a stored vehicle of sufficient capacity
exactly when no stored booking of it satisfies the same two inequalities. -/
theorem conflict_iff_overlap (D : DateParse) (db : Store) (body : BookingBody)
    (vid : ObjectId) (start hours : Int) (v : Vehicle) (query : AvailabilityQuery)
    (capacity qstart qhours : Int)
    (hw : body.WellFormed D vid start hours)
    (hv : db.vehicles.find? (fun v => v._id == vid) = some v)
    (hq : query.WellFormed D capacity qstart qhours) :
    ((createBooking D db body).1.status = 409 ↔
        ∃ B ∈ db.bookings, B.vehicleId = vid ∧
          B.startTime < start + hours * 3600000 ∧ start < B.endTime) ∧
      ∀ w ∈ db.vehicles, capacity ≤ w.capacityKg →
        ((w, some qhours) ∈ (getAvailableVehicles D db query).1.available ↔
          ¬ ∃ B ∈ db.bookings, B.vehicleId = w._id ∧
            B.startTime < qstart + qhours * 3600000 ∧ qstart < B.endTime) := by
  constructor
  · rcases createBooking_wellFormed hw hv with ⟨⟨c, hc, hcv, hco⟩, heq⟩ | ⟨hfree, b, hb⟩
    · rw [heq]
      exact ⟨fun _ => ⟨c, hc, hcv, hco.1, hco.2⟩, fun _ => rfl⟩
    · constructor
      · intro h409
        rw [hb.status] at h409
        exact absurd h409 (by decide)
      · rintro ⟨B, hB, hBv, h1, h2⟩
        exact absurd ⟨h1, h2⟩ (hfree B hB hBv)
  · intro w hw' hcap
    rw [getAvailableVehicles_wellFormed hq db]
    simp only [Response.available, List.mem_map, List.mem_filter, decide_eq_true_eq,
      Prod.mk.injEq, and_true, exists_eq_right, Store.free, overlaps]
    constructor
    · rintro ⟨⟨_, _⟩, hfree⟩ ⟨B, hB, hBv, h1, h2⟩
      exact hfree B hB hBv ⟨h1, h2⟩
    · intro hno
      exact ⟨⟨hw', hcap⟩, fun B hB hBv ho => hno ⟨B, hB, hBv, ho.1, ho.2⟩⟩


theorem testBooking_wellFormed : testBooking.WellFormed isoDateParse 0 1698400800000 19 :=
  ⟨by decide, rfl, by decide, by decide, by decide⟩

theorem conflictingBooking_wellFormed :
    conflictingBooking.WellFormed isoDateParse 0 1698418800000 19 :=
  ⟨by decide, rfl, by decide, by decide, by decide⟩

theorem backToBackBooking_wellFormed :
    backToBackBooking.WellFormed isoDateParse 0 1698469200000 19 :=
  ⟨by decide, rfl, by decide, by decide, by decide⟩

theorem emptyWindowBooking_wellFormed :
    emptyWindowBooking.WellFormed isoDateParse 0 1698400800000 0 :=
  ⟨by decide, rfl, by decide, by decide, by decide⟩

theorem testQuery_wellFormed : testQuery.WellFormed isoDateParse 500 1698400800000 19 :=
  ⟨by decide, by decide, by decide, by decide, by decide⟩

/-- Witness of C3: the 15:00 request of the test-suite against the stored
10:00 booking. -/
theorem conflict_iff_overlap_witness :
    conflictingBooking.WellFormed isoDateParse 0 1698418800000 19 ∧
      testQuery.WellFormed isoDateParse 500 1698400800000 19 ∧
      ((createBooking isoDateParse bookedDb conflictingBooking).1.status = 409 ↔
        ∃ B ∈ bookedDb.bookings, B.vehicleId = 0 ∧
          B.startTime < 1698418800000 + 19 * 3600000 ∧ 1698418800000 < B.endTime) :=
  ⟨conflictingBooking_wellFormed, testQuery_wellFormed,
    (conflict_iff_overlap isoDateParse bookedDb conflictingBooking 0 1698418800000 19
      testVehicle testQuery 500
      1698400800000 19 conflictingBooking_wellFormed (by decide) testQuery_wellFormed).1⟩

/-- C4. A request on the vehicle of a stored booking `A` that starts when `A`
ends, or whose computed end is the start of `A`, does not match `A` in the
conflict query: it is stored with 201 unless some other booking of the vehicle
overlaps its window. -/
theorem back_to_back_accepted (D : DateParse) (db : Store) (body : BookingBody)
    (vid : ObjectId) (start hours : Int) (v : Vehicle) (A : Booking)
    (hw : body.WellFormed D vid start hours)
    (hv : db.vehicles.find? (fun v => v._id == vid) = some v)
    (hA : A ∈ db.bookings) (hAv : A.vehicleId = vid)
    (htouch : start = A.endTime ∨ start + hours * 3600000 = A.startTime) :
    ¬ overlaps A start (start + hours * 3600000) ∧
      Booking.findOne { db with bookings := [A] } (castObjectId body.vehicleId)
        (endDate (newDate D body.startTime)
          (estimatedRideDurationHours body.toPincode body.fromPincode))
        (newDate D body.startTime) = .ok none ∧
      ((∀ C ∈ db.bookings, C ≠ A → C.vehicleId = vid →
          ¬ overlaps C start (start + hours * 3600000)) →
        (createBooking D db body).1.status = 201) := by
  have hno : ¬ overlaps A start (start + hours * 3600000) := by
    rintro ⟨h1, h2⟩
    rcases htouch with h | h <;> omega
  refine ⟨hno, ?_, ?_⟩
  · rw [hw.vehicleId_ok, hw.hours_ok, hw.start_ok, hw.window_ok, Booking.findOne_ok]
    congr 1
    apply find?_conflict_none.mpr
    intro c hc _
    simp only [List.mem_singleton] at hc
    subst hc
    exact hno
  · intro hothers
    rcases createBooking_wellFormed hw hv with ⟨⟨c, hc, hcv, hco⟩, _⟩ | ⟨_, b, hb⟩
    · by_cases hcA : c = A
      · subst hcA
        exact absurd hco hno
      · exact absurd hco (hothers c hc hcA hcv)
    · exact hb.status

/-- Witness of C4: a request starting at 05:00, when the stored booking ends. -/
theorem back_to_back_accepted_witness :
    backToBackBooking.WellFormed isoDateParse 0 1698469200000 19 ∧
      storedBooking ∈ bookedDb.bookings ∧
      (createBooking isoDateParse bookedDb backToBackBooking).1.status = 201 :=
  ⟨backToBackBooking_wellFormed, by decide,
    (back_to_back_accepted isoDateParse bookedDb backToBackBooking 0 1698469200000 19
      testVehicle storedBooking
      backToBackBooking_wellFormed (by decide) (by decide) rfl (Or.inl rfl)).2.2
      (by decide)⟩

/-- C5. A well-formed request on a stored vehicle whose window `[start, end)`
lies before or after every stored booking of that vehicle is answered with 201,
and the booking for that window is stored. -/
theorem disjoint_windows_coexist (D : DateParse) (db : Store) (body : BookingBody)
    (vid : ObjectId) (start hours : Int) (v : Vehicle)
    (hw : body.WellFormed D vid start hours)
    (hv : db.vehicles.find? (fun v => v._id == vid) = some v)
    (hdisjoint : ∀ B ∈ db.bookings, B.vehicleId = vid →
      start + hours * 3600000 ≤ B.startTime ∨ B.endTime ≤ start) :
    (createBooking D db body).1.status = 201 ∧
      ∃ b, (createBooking D db body).2.bookings = db.bookings ++ [b] ∧
        (createBooking D db body).2.vehicles = db.vehicles ∧
        b.vehicleId = vid ∧ b.startTime = start ∧ b.endTime = start + hours * 3600000 := by
  rcases createBooking_wellFormed hw hv with ⟨⟨c, hc, hcv, hco⟩, _⟩ | ⟨_, b, hb⟩
  · exfalso
    rcases hdisjoint c hc hcv with h | h
    · have := hco.1; omega
    · have := hco.2; omega
  · refine ⟨hb.status, b, by rw [hb.store], by rw [hb.store], ?_, ?_, ?_⟩
    · have := hb.vehicleId
      rw [hw.vehicleId_ok] at this
      injection this with this
      exact this.symm
    · have := hb.startTime
      rw [hw.start_ok] at this
      injection this with this
      exact this.symm
    · have h1 := hb.startTime
      have h2 := hb.hours
      rw [hw.start_ok] at h1
      rw [hw.hours_ok] at h2
      injection h1 with h1
      injection h2 with h2
      rw [hb.endTime, ← h1, ← h2]

/-- Witness of C5: a request for the window right after the stored booking. -/
theorem disjoint_windows_coexist_witness :
    backToBackBooking.WellFormed isoDateParse 0 1698469200000 19 ∧
      (createBooking isoDateParse bookedDb backToBackBooking).1.status = 201 ∧
      ∃ b, (createBooking isoDateParse bookedDb backToBackBooking).2.bookings =
          bookedDb.bookings ++ [b] ∧
        (createBooking isoDateParse bookedDb backToBackBooking).2.vehicles = bookedDb.vehicles ∧
        b.vehicleId = 0 ∧ b.startTime = 1698469200000 ∧
        b.endTime = 1698469200000 + 19 * 3600000 :=
  ⟨backToBackBooking_wellFormed,
    disjoint_windows_coexist isoDateParse bookedDb backToBackBooking 0 1698469200000 19
      testVehicle
      backToBackBooking_wellFormed (by decide) (by decide)⟩


/-- C6, as stated, fails: the stored test booking spans from 10:00 to 05:00 the
next day, the request starts at 10:00, inside that span, with equal pincodes
and hence duration zero, and it is answered with 201 instead of 409. -/
theorem start_inside_rejected_counterexample :
    storedBooking ∈ bookedDb.bookings ∧ storedBooking.vehicleId = 0 ∧
      emptyWindowBooking.WellFormed isoDateParse 0 1698400800000 0 ∧
      (∃ v, bookedDb.vehicles.find? (fun v => v._id == 0) = some v) ∧
      storedBooking.startTime ≤ 1698400800000 ∧ 1698400800000 < storedBooking.endTime ∧
      (createBooking isoDateParse bookedDb emptyWindowBooking).1.status = 201 ∧
      (createBooking isoDateParse bookedDb emptyWindowBooking).1.status ≠ 409 :=
  ⟨by decide, rfl, emptyWindowBooking_wellFormed, ⟨_, rfl⟩, by decide, by decide, by decide,
    by decide⟩

/-- C6, amended. For a stored booking `A` on a stored vehicle and a well-formed
request on that vehicle whose start lies within the span of `A`
(`A.startTime ≤ start < A.endTime`), the call fails with 409 "Vehicle is already
booked for this time slot." and stores nothing, provided the estimated duration
is not zero or the start is later than `A.startTime`. -/
theorem start_inside_rejected (D : DateParse) (db : Store) (body : BookingBody)
    (vid : ObjectId) (start hours : Int) (v : Vehicle) (A : Booking)
    (hw : body.WellFormed D vid start hours)
    (hv : db.vehicles.find? (fun v => v._id == vid) = some v)
    (hA : A ∈ db.bookings) (hAv : A.vehicleId = vid)
    (hin : A.startTime ≤ start ∧ start < A.endTime)
    (hnonempty : hours ≠ 0 ∨ A.startTime < start) :
    createBooking D db body =
      ({ status := 409, body := .error "Vehicle is already booked for this time slot." },
        db) := by
  have hrange := estimatedRideDurationHours_range hw.hours_ok
  rcases createBooking_wellFormed hw hv with ⟨_, heq⟩ | ⟨hfree, _⟩
  · exact heq
  · exfalso
    apply hfree A hA hAv
    constructor
    · rcases hnonempty with h | h <;> omega
    · exact hin.2

/-- Witness of amended C6: the 15:00 request of the test-suite. -/
theorem start_inside_rejected_witness :
    conflictingBooking.WellFormed isoDateParse 0 1698418800000 19 ∧
      storedBooking ∈ bookedDb.bookings ∧
      createBooking isoDateParse bookedDb conflictingBooking =
        ({ status := 409, body := .error "Vehicle is already booked for this time slot." },
          bookedDb) :=
  ⟨conflictingBooking_wellFormed, by decide,
    start_inside_rejected isoDateParse bookedDb conflictingBooking 0 1698418800000 19
      testVehicle storedBooking
      conflictingBooking_wellFormed (by decide) (by decide) rfl (by decide)
      (Or.inl (by decide))⟩

/-! ## Duration and window of a stored booking -/

/-- C8. The booking stored by a call of `createBooking` that answers 201 has an
integer `estimatedRideDurationHours` between 0 and 23 and an `endTime` exactly
`estimatedRideDurationHours * 3600000` ms after its `startTime`, hence not
before it. -/
theorem stored_window (D : DateParse) (db : Store) (body : BookingBody)
    (h201 : (createBooking D db body).1.status = 201) :
    ∃ b, (createBooking D db body).2.bookings = db.bookings ++ [b] ∧
      0 ≤ b.estimatedRideDurationHours ∧ b.estimatedRideDurationHours ≤ 23 ∧
      b.endTime = b.startTime + b.estimatedRideDurationHours * 3600000 ∧
      b.startTime ≤ b.endTime := by
  rcases createBooking_cases D db body with ⟨_, hne⟩ | ⟨b, hb⟩
  · exact absurd h201 hne
  · have hrange := estimatedRideDurationHours_range hb.hours
    refine ⟨b, by rw [hb.store], hrange.1, hrange.2, hb.endTime, ?_⟩
    have := hb.endTime
    omega

/-- Witness of C8: pincodes 110001 and 110020 with start 2023-10-27T10:00:00Z
give a stored duration of 19 hours and the end 2023-10-28T05:00:00Z. -/
theorem stored_window_witness :
    (createBooking isoDateParse testDb testBooking).1.status = 201 ∧
      (createBooking isoDateParse testDb testBooking).2.bookings = [storedBooking] ∧
      storedBooking.estimatedRideDurationHours = 19 ∧
      isoDateParse "2023-10-27T10:00:00Z" = some storedBooking.startTime ∧
      isoDateParse "2023-10-28T05:00:00Z" = some storedBooking.endTime ∧
      ∃ b, (createBooking isoDateParse testDb testBooking).2.bookings = testDb.bookings ++ [b] ∧
        0 ≤ b.estimatedRideDurationHours ∧ b.estimatedRideDurationHours ≤ 23 ∧
        b.endTime = b.startTime + b.estimatedRideDurationHours * 3600000 ∧
        b.startTime ≤ b.endTime :=
  ⟨by decide, by decide, rfl, by decide, by decide,
    stored_window isoDateParse testDb testBooking (by decide)⟩

/-- C9. The estimated duration is symmetric in its two codes, whatever values
they are. -/
theorem duration_symmetric (a b : JVal) :
    estimatedRideDurationHours a b = estimatedRideDurationHours b a := by
  unfold estimatedRideDurationHours
  cases parseInt a <;> cases parseInt b <;> simp [abs_sub_comm]

/-! ## Validation -/

/-- C10. A `createBooking` request in which `vehicleId`, `fromPincode`,
`toPincode`, `startTime` or `customerId` is absent, `null` or the empty string
is answered with 400 "Missing required fields." whatever the database holds,
and the database is left as it was. -/
theorem missing_field_rejected (D : DateParse) (db : Store) (body : BookingBody)
    (hmissing : body.vehicleId.missing ∨ body.fromPincode.missing ∨ body.toPincode.missing ∨
      body.startTime.missing ∨ body.customerId.missing) :
    createBooking D db body =
      ({ status := 400, body := .error "Missing required fields." }, db) := by
  have key : ∀ v : JVal, v.missing → v.truthy = false := by
    intro v hv
    rcases hv with h | h | h <;> subst h <;> rfl
  unfold createBooking
  rw [if_pos]
  rcases hmissing with h | h | h | h | h <;> simp [key _ h]

/-- Witness of C10: the request of "should fail with missing required fields",
which carries a vehicle identifier only. -/
theorem missing_field_rejected_witness :
    createBooking isoDateParse testDb
        { vehicleId := .str "000000000000000000000000", fromPincode := .undefined,
          toPincode := .undefined, startTime := .undefined, customerId := .undefined } =
      ({ status := 400, body := .error "Missing required fields." }, testDb) :=
  missing_field_rejected isoDateParse testDb _ (Or.inr (Or.inl (Or.inl rfl)))


/-! ## The duration estimator on integer codes -/

theorem radixDigit_digitChar : ∀ d, d < 10 → radixDigit 10 (digitChar d) = some d := by
  decide

theorem digitChar_not_space : ∀ d, d < 10 → isStrWhiteSpaceChar (digitChar d) = false := by
  decide

theorem digitChar_ne_marks : ∀ d, d < 10 →
    digitChar d ≠ '-' ∧ digitChar d ≠ '+' ∧ digitChar d ≠ 'x' ∧ digitChar d ≠ 'X' := by
  decide

theorem allDigits_decimalAux (fuel n : Nat) (acc : List Char) (h : AllDigits acc) :
    AllDigits (decimalAux fuel n acc) := by
  induction fuel generalizing n acc with
  | zero => simpa [decimalAux] using h
  | succ fuel ih =>
    unfold decimalAux
    split
    · rename_i hn
      intro c hc
      rcases List.mem_cons.mp hc with hc | hc
      · exact ⟨n, hn, hc⟩
      · exact h c hc
    · apply ih
      intro c hc
      rcases List.mem_cons.mp hc with hc | hc
      · exact ⟨n % 10, Nat.mod_lt _ (by decide), hc⟩
      · exact h c hc

theorem allDigits_decimal (n : Nat) : AllDigits (decimal n) :=
  allDigits_decimalAux _ _ _ (by intro c hc; simp at hc)

theorem readDigits_allDigits (l : List Char) (h : AllDigits l) (acc : Nat) (seen : Bool) :
    readDigits 10 l acc seen =
      (l.foldl (fun a c => a * 10 + (c.toNat - 48)) acc, seen || !l.isEmpty) := by
  induction l generalizing acc seen with
  | nil => simp [readDigits]
  | cons c cs ih =>
    obtain ⟨d, hd, rfl⟩ := h c (List.mem_cons_self _ _)
    have hval : (digitChar d).toNat - 48 = d :=
      (by decide : ∀ d, d < 10 → (digitChar d).toNat - 48 = d) d hd
    unfold readDigits
    rw [radixDigit_digitChar d hd]
    dsimp only
    rw [ih (fun c hc => h c (List.mem_cons_of_mem _ hc))]
    simp [hval]

theorem foldl_decimalAux (fuel n : Nat) (hn : n < fuel) (acc : List Char) :
    (decimalAux fuel n acc).foldl (fun a c => a * 10 + (c.toNat - 48)) 0 =
      acc.foldl (fun a c => a * 10 + (c.toNat - 48)) n := by
  have hval : ∀ d, d < 10 → (digitChar d).toNat - 48 = d := by decide
  induction fuel generalizing n acc with
  | zero => omega
  | succ fuel ih =>
    unfold decimalAux
    split
    · rename_i h10
      simp [hval n h10]
    · rename_i h10
      rw [ih (n / 10) (by omega)]
      simp only [List.foldl_cons, hval (n % 10) (Nat.mod_lt _ (by decide))]
      congr 1
      omega

theorem readDigits_decimal (n : Nat) : readDigits 10 (decimal n) 0 false = (n, true) := by
  rw [readDigits_allDigits _ (allDigits_decimal n)]
  have h1 : (decimal n).isEmpty = false := by
    cases hd : decimal n with
    | nil => exact absurd hd (decimal_ne_nil n)
    | cons c cs => rfl
  have h2 := foldl_decimalAux (n + 1) n (by omega) []
  simp only [List.foldl_nil] at h2
  unfold decimal at h1 ⊢
  rw [h2, h1]
  rfl

theorem dropWhile_allDigits (l : List Char) (h : AllDigits l) :
    l.dropWhile isStrWhiteSpaceChar = l := by
  cases l with
  | nil => rfl
  | cons c cs =>
    obtain ⟨d, hd, rfl⟩ := h c (List.mem_cons_self _ _)
    simp [List.dropWhile, digitChar_not_space d hd]

theorem signOf_allDigits (l : List Char) (h : AllDigits l) : signOf l = (1, l) := by
  unfold signOf
  split
  · rename_i rest
    obtain ⟨d, hd, hc⟩ := h '-' (List.mem_cons_self _ _)
    exact absurd hc.symm (digitChar_ne_marks d hd).1
  · obtain ⟨d, hd, hc⟩ := h '+' (List.mem_cons_self _ _)
    exact absurd hc.symm (digitChar_ne_marks d hd).2.1
  · rfl

theorem radixOf_allDigits (l : List Char) (h : AllDigits l) : radixOf l = (10, l) := by
  unfold radixOf
  split
  · obtain ⟨d, hd, hc⟩ := h 'x' (by simp)
    exact absurd hc.symm (digitChar_ne_marks d hd).2.2.1
  · obtain ⟨d, hd, hc⟩ := h 'X' (by simp)
    exact absurd hc.symm (digitChar_ne_marks d hd).2.2.2
  · rfl

/-- The function `parseInt` reads the decimal numeral of an integer back. -/
theorem parseInt_numeral (n : Int) : parseInt (.str (numeral n)) = some n := by
  have hd := allDigits_decimal n.natAbs
  unfold parseInt numeral
  by_cases hneg : n < 0
  · simp only [JVal.toJSString, hneg, ↓reduceIte]
    have h1 : ('-' :: decimal n.natAbs).dropWhile isStrWhiteSpaceChar
        = '-' :: decimal n.natAbs := by
      have hs : isStrWhiteSpaceChar '-' = false := by decide
      simp [List.dropWhile, hs]
    have h2 : signOf ('-' :: decimal n.natAbs) = (-1, decimal n.natAbs) := rfl
    simp only [h1, h2, radixOf_allDigits _ hd, readDigits_decimal]
    congr 1
    omega
  · simp only [JVal.toJSString, hneg, ↓reduceIte]
    simp only [dropWhile_allDigits _ hd, signOf_allDigits _ hd, radixOf_allDigits _ hd,
      readDigits_decimal]
    congr 1
    omega

theorem parseInt_num (n : Int) : parseInt (.num n) = some n := parseInt_numeral n

theorem decimalAux_eq (n : Nat) : ∀ fuel acc, n < fuel →
    decimalAux fuel n acc = decimal n ++ acc := by
  induction n using Nat.strong_induction_on with
  | _ n ih =>
    intro fuel acc hf
    obtain ⟨fuel, rfl⟩ : ∃ f, fuel = f + 1 := ⟨fuel - 1, by omega⟩
    by_cases h10 : n < 10
    · simp [decimal, decimalAux, h10]
    · have hlt : n / 10 < n := by omega
      have h1 : decimalAux (fuel + 1) n acc = decimal (n / 10) ++ digitChar (n % 10) :: acc := by
        rw [decimalAux, if_neg h10]
        exact ih (n / 10) hlt fuel _ (by omega)
      have h2 : decimal n = decimal (n / 10) ++ [digitChar (n % 10)] := by
        unfold decimal
        rw [decimalAux, if_neg h10]
        exact ih (n / 10) hlt n _ hlt
      rw [h1, h2]
      simp

theorem decimal_of_lt (n : Nat) (h : n < 10) : decimal n = [digitChar n] := by
  simp [decimal, decimalAux, h]

theorem decimal_of_ge (n : Nat) (h : 10 ≤ n) :
    decimal n = decimal (n / 10) ++ [digitChar (n % 10)] := by
  have h10 : ¬ n < 10 := by omega
  unfold decimal
  rw [decimalAux, if_neg h10]
  exact decimalAux_eq (n / 10) n _ (by omega)

theorem decimal_mul_pow (a : Nat) (ha : 0 < a) (j : Nat) :
    decimal (a * 10 ^ j) = decimal a ++ List.replicate j '0' := by
  induction j with
  | zero => simp
  | succ j ih =>
    have hpos : 0 < a * 10 ^ j := Nat.mul_pos ha (Nat.pow_pos (by decide))
    have hge : 10 ≤ a * 10 ^ (j + 1) := by
      rw [pow_succ, ← Nat.mul_assoc]
      omega
    rw [decimal_of_ge _ hge]
    have hdiv : a * 10 ^ (j + 1) / 10 = a * 10 ^ j := by
      rw [pow_succ, ← Nat.mul_assoc]
      exact Nat.mul_div_cancel _ (by decide)
    have hmod : a * 10 ^ (j + 1) % 10 = 0 := by
      rw [pow_succ, ← Nat.mul_assoc]
      exact Nat.mul_mod_left _ _
    rw [hdiv, hmod, ih, List.replicate_succ', List.append_assoc]
    rfl

theorem decimal_length_le (j : Nat) : ∀ m, m < 10 ^ (j + 1) → (decimal m).length ≤ j + 1 := by
  induction j with
  | zero =>
    intro m hm
    rw [decimal_of_lt m (by simpa using hm)]
    simp
  | succ j ih =>
    intro m hm
    by_cases h10 : m < 10
    · rw [decimal_of_lt m h10]
      simp
    · rw [decimal_of_ge m (by omega)]
      have : m / 10 < 10 ^ (j + 1) := by
        rw [Nat.div_lt_iff_lt_mul (by decide)]
        rw [pow_succ] at hm
        exact hm
      have := ih _ this
      simp
      omega

theorem bitLengthAux_spec : ∀ fuel m, m ≤ fuel → 0 < m →
    2 ^ (bitLengthAux fuel m - 1) ≤ m ∧ m < 2 ^ bitLengthAux fuel m := by
  intro fuel
  induction fuel with
  | zero => intro m h1 h2; omega
  | succ fuel ih =>
    intro m hle hpos
    have hm0 : m ≠ 0 := by omega
    rw [bitLengthAux, if_neg hm0]
    by_cases h1 : m = 1
    · subst h1
      cases fuel with
      | zero => simp [bitLengthAux]
      | succ fuel => simp [bitLengthAux]
    · have hhalf : 0 < m / 2 := by omega
      obtain ⟨hlo, hhi⟩ := ih (m / 2) (by omega) hhalf
      have hb : 1 ≤ bitLengthAux fuel (m / 2) := by
        by_contra hcon
        have : bitLengthAux fuel (m / 2) = 0 := by omega
        rw [this] at hhi
        simp at hhi
        omega
      constructor
      · simp only [Nat.add_sub_cancel]
        obtain ⟨c, hc⟩ : ∃ c, bitLengthAux fuel (m / 2) = c + 1 := ⟨_, (Nat.sub_add_cancel hb).symm⟩
        rw [hc] at hlo ⊢
        simp only [Nat.add_sub_cancel] at hlo
        rw [pow_succ]
        omega
      · rw [pow_succ]
        omega

theorem bitLength_spec (m : Nat) (h : 0 < m) :
    2 ^ (bitLength m - 1) ≤ m ∧ m < 2 ^ bitLength m :=
  bitLengthAux_spec m m (Nat.le_refl _) h

theorem roundToDouble_of_lt (m : Nat) (h : m < 2 ^ 53) : roundToDouble m = some m := by
  unfold roundToDouble
  rw [if_pos h]

theorem roundToDouble_ge (v w : Nat) (hv : 2 ^ 53 ≤ v) (h : roundToDouble v = some w) :
    2 ^ 53 ≤ w := by
  unfold roundToDouble at h
  rw [if_neg (by omega)] at h
  obtain ⟨hlo, hhi⟩ := bitLength_spec v (by have : 0 < 2 ^ 53 := by decide
                                            omega)
  have hbits : 54 ≤ bitLength v := by
    by_contra hcon
    have : 2 ^ bitLength v ≤ 2 ^ 53 := Nat.pow_le_pow_right (by decide) (by omega)
    omega
  obtain ⟨e, he⟩ : ∃ e, bitLength v = e + 53 := ⟨bitLength v - 53, by omega⟩
  have he1 : 1 ≤ e := by omega
  simp only [he, Nat.add_sub_cancel] at h hlo
  have hq : 2 ^ 52 ≤ v / 2 ^ e := by
    rw [Nat.le_div_iff_mul_le (Nat.pow_pos (by decide))]
    have : e + 53 - 1 = 52 + e := by omega
    rw [this, pow_add] at hlo
    exact hlo
  have he2 : 2 ≤ 2 ^ e := by
    calc 2 = 2 ^ 1 := rfl
      _ ≤ 2 ^ e := Nat.pow_le_pow_right (by decide) he1
  have hs : ∀ s, 2 ^ 52 ≤ s →
      (if bitLength (s * 2 ^ e) ≤ 1024 then some (s * 2 ^ e) else none) = some w →
      2 ^ 53 ≤ w := by
    intro s hs hw
    by_cases hb : bitLength (s * 2 ^ e) ≤ 1024
    · rw [if_pos hb] at hw
      have hw := Option.some.inj hw
      have hmul : 2 ^ 52 * 2 ≤ s * 2 ^ e := Nat.mul_le_mul hs he2
      have h53 : (2 : Nat) ^ 53 = 2 ^ 52 * 2 := by norm_num
      rw [← hw, h53]
      exact hmul
    · rw [if_neg hb] at hw
      exact absurd hw (by simp)
  by_cases hc : v % 2 ^ e > 2 ^ (e - 1) ∨ v % 2 ^ e = 2 ^ (e - 1) ∧ v / 2 ^ e % 2 = 1
  · rw [if_pos hc] at h
    exact hs _ (by omega) h
  · rw [if_neg hc] at h
    exact hs _ hq h

theorem shortestDigits_small (m : Nat) (hm : m < 2 ^ 53) : ∀ fuel k,
    k + fuel = (decimal m).length → 1 ≤ k →
    decimal (shortestDigits m (decimal m).length fuel k).1 ++
        List.replicate ((shortestDigits m (decimal m).length fuel k).2 -
          (decimal (shortestDigits m (decimal m).length fuel k).1).length) '0' = decimal m := by
  intro fuel
  induction fuel with
  | zero =>
    intro k _ _
    simp [shortestDigits]
  | succ fuel ih =>
    intro k hk h1
    have hp : 0 < 10 ^ ((decimal m).length - k) := Nat.pow_pos (by decide)
    have hlo : m / 10 ^ ((decimal m).length - k) * 10 ^ ((decimal m).length - k) ≤ m :=
      Nat.div_mul_le_self _ _
    have hhi : m < (m / 10 ^ ((decimal m).length - k) + 1) * 10 ^ ((decimal m).length - k) := by
      have := Nat.lt_succ_self (m / 10 ^ ((decimal m).length - k))
      rw [Nat.div_lt_iff_lt_mul hp] at this
      exact this
    unfold shortestDigits
    simp only
    split
    · rename_i hacc
      simp only [Bool.and_eq_true, beq_iff_eq] at hacc
      have hok := hacc.1
      rw [roundToDouble_of_lt _ (by omega)] at hok
      injection hok with hok
      have hlopos : 0 < m / 10 ^ ((decimal m).length - k) := by
        rcases Nat.eq_zero_or_pos (m / 10 ^ ((decimal m).length - k)) with h0 | h0
        · rw [h0] at hok
          simp at hok
          subst hok
          have : (decimal 0).length = 1 := by decide
          omega
        · exact h0
      have hdec := decimal_mul_pow _ hlopos ((decimal m).length - k)
      rw [hok] at hdec
      have hlen := congrArg List.length hdec
      simp only [List.length_append, List.length_replicate] at hlen
      have : (decimal m).length - (decimal (m / 10 ^ ((decimal m).length - k))).length
          = (decimal m).length - k := by omega
      simp only
      rw [this]
      exact hdec.symm
    · split
      · rename_i _ hacc
        simp only [beq_iff_eq] at hacc
        exfalso
        by_cases hsmall : (m / 10 ^ ((decimal m).length - k) + 1) * 10 ^ ((decimal m).length - k) < 2 ^ 53
        · rw [roundToDouble_of_lt _ hsmall] at hacc
          injection hacc with hacc
          omega
        · have := roundToDouble_ge _ _ (by omega) hacc
          omega
      · exact ih (k + 1) (by omega) (by omega)

theorem numberDigits_small (m : Nat) (hm : m < 2 ^ 53) : numberDigits m = decimal m := by
  have hlen : (decimal m).length ≤ 16 :=
    decimal_length_le 15 m (by have : (2 : Nat) ^ 53 < 10 ^ 16 := by norm_num
                               omega)
  have key := shortestDigits_small m hm ((decimal m).length - 1) 1 (by
    have : (decimal m).length ≠ 0 := by
      intro h0
      by_cases h10 : m < 10
      · rw [decimal_of_lt m h10] at h0; simp at h0
      · rw [decimal_of_ge m (by omega)] at h0; simp at h0
    omega) (Nat.le_refl _)
  have hl := congrArg List.length key
  simp only [List.length_append, List.length_replicate] at hl
  unfold numberDigits
  simp only
  rw [if_pos (by omega)]
  exact key

theorem ofInt_of_lt (z : Int) (h : |z| < 2 ^ 53) : Number.ofInt z = .finite z := by
  have hn : z.natAbs < 2 ^ 53 := by
    have := abs_lt.mp h
    omega
  unfold Number.ofInt
  rw [roundToDouble_of_lt _ hn]
  simp only
  congr 1
  split <;> omega

theorem toJSString_of_lt (z : Int) (h : |z| < 2 ^ 53) :
    (Number.finite z).toJSString = numeral z := by
  have hn : z.natAbs < 2 ^ 53 := by
    have := abs_lt.mp h
    omega
  simp only [Number.toJSString, numeral, numberDigits_small _ hn]

/-- Below `2 ^ 53` the Number that `parseInt` returns is the integer that the
digits denote: on such codes the handlers, which compute with that integer,
compute what the run time computes. -/
theorem parseInt_of_lt (v : JVal) (t : Int) (hv : parseInt v = some t)
    (ht : |t| < 2 ^ 53) : Number.parseInt v = .finite t := by
  cases v with
  | num n =>
    rw [parseInt_num] at hv
    injection hv with hv
    subst hv
    simp only [Number.parseInt, ofInt_of_lt n ht, toJSString_of_lt n ht, parseInt_numeral,
      Number.ofJNum]
  | undefined => simp only [Number.parseInt, hv, Number.ofJNum, ofInt_of_lt t ht]
  | null => simp only [Number.parseInt, hv, Number.ofJNum, ofInt_of_lt t ht]
  | bool b => simp only [Number.parseInt, hv, Number.ofJNum, ofInt_of_lt t ht]
  | str s => simp only [Number.parseInt, hv, Number.ofJNum, ofInt_of_lt t ht]

/-- When both codes and their difference are below `2 ^ 53` in magnitude, the
duration that the handlers compute on integers is the duration that the run
time computes on doubles. -/
theorem estimatedRideDurationHours_of_lt (toPincode fromPincode : JVal) (t f : Int)
    (hto : parseInt toPincode = some t) (hfrom : parseInt fromPincode = some f)
    (ht : |t| < 2 ^ 53) (hf : |f| < 2 ^ 53) (hdiff : |t - f| < 2 ^ 53) :
    Number.estimatedRideDurationHours toPincode fromPincode =
        Number.ofJNum (estimatedRideDurationHours toPincode fromPincode) ∧
      estimatedRideDurationHours toPincode fromPincode = some (|t - f| % 24) := by
  have h0 : (0 : Int) ≤ |t - f| := abs_nonneg _
  have hmod : Int.tmod (|t - f|) 24 = |t - f| % 24 :=
    Int.tmod_eq_emod h0 (by decide)
  have hrange : |(|t - f| % 24)| < 2 ^ 53 := by
    have h1 := Int.emod_nonneg (|t - f|) (by decide : (24 : Int) ≠ 0)
    have h2 := Int.emod_lt_of_pos (|t - f|) (by decide : (0 : Int) < 24)
    rw [abs_of_nonneg h1]
    omega
  have hexact : estimatedRideDurationHours toPincode fromPincode = some (|t - f| % 24) := by
    unfold estimatedRideDurationHours
    rw [hto, hfrom]
    simp only [hmod]
  refine ⟨?_, hexact⟩
  rw [hexact]
  unfold Number.estimatedRideDurationHours
  rw [parseInt_of_lt _ _ hto ht, parseInt_of_lt _ _ hfrom hf]
  simp only [Number.sub, ofInt_of_lt _ hdiff, Number.abs, Number.rem, Number.ofJNum,
    ofInt_of_lt _ hrange, hmod]

set_option maxRecDepth 100000 in
set_option exponentiation.threshold 2000 in
/-- The numerals of `Number::toString` beyond the integers that are printed
digit by digit: rounded digits padded with zeros up to 21 digits, the exponent
form from `1e21` on. -/
theorem toJSString_examples :
    (Number.ofInt (2 ^ 60)).toJSString = "1152921504606847000" ∧
      (Number.ofInt 9007199254740993).toJSString = "9007199254740992" ∧
      (Number.ofInt (10 ^ 21)).toJSString = "1e+21" ∧
      (Number.ofInt (-(123456789 * 10 ^ 20))).toJSString = "-1.23456789e+28" ∧
      (Number.ofInt (10 ^ 309)).toJSString = "Infinity" := by
  decide

set_option maxRecDepth 100000 in
set_option exponentiation.threshold 2000 in
/-- C7, as stated, fails: Numbers are doubles. The code `9007199254740993`,
which is `2 ^ 53 + 1`, is read as `2 ^ 53`, so that with the origin `0` the
duration is 8 where the formula gives 9. The JSON number `10 ^ 21` is printed as
`1e+21` and read as 1, where the formula gives 16. The JSON number `10 ^ 309`
is Infinity, `parseInt` reads no digit in it, and the duration is NaN. -/
theorem duration_eq_formula_counterexample :
    Number.estimatedRideDurationHours (.str "9007199254740993") (.str "0") = .finite 8 ∧
      |(9007199254740993 : Int) - 0| % 24 = 9 ∧
      Number.estimatedRideDurationHours (.num (10 ^ 21)) (.num 0) = .finite 1 ∧
      |(10 ^ 21 : Int) - 0| % 24 = 16 ∧
      Number.estimatedRideDurationHours (.num (10 ^ 309)) (.num 0) = .nan := by
  decide

/-- C7, amended. For all integer origin and destination codes that are below
`2 ^ 53` in magnitude, and whose difference is, as are all codes of up to
fifteen digits, written as decimal strings or given as JSON numbers, the
duration expression of `createBooking` and of `getAvailableVehicles`, evaluated
on doubles, is defined and equals `|destination - origin| mod 24`, and so does
the value with which the handlers go on; it is a function of the two codes
alone. -/
theorem duration_eq_formula (origin destination : Int) (horigin : |origin| < 2 ^ 53)
    (hdestination : |destination| < 2 ^ 53) (hdiff : |destination - origin| < 2 ^ 53) :
    Number.estimatedRideDurationHours (.str (numeral destination)) (.str (numeral origin)) =
        .finite (|destination - origin| % 24) ∧
      Number.estimatedRideDurationHours (.num destination) (.num origin) =
        .finite (|destination - origin| % 24) ∧
      estimatedRideDurationHours (.str (numeral destination)) (.str (numeral origin)) =
        some (|destination - origin| % 24) ∧
      estimatedRideDurationHours (.num destination) (.num origin) =
        some (|destination - origin| % 24) := by
  have hs := estimatedRideDurationHours_of_lt (.str (numeral destination))
    (.str (numeral origin)) destination origin (parseInt_numeral _) (parseInt_numeral _)
    hdestination horigin hdiff
  have hn := estimatedRideDurationHours_of_lt (.num destination) (.num origin)
    destination origin (parseInt_num _) (parseInt_num _) hdestination horigin hdiff
  have hrange : |(|destination - origin| % 24)| < 2 ^ 53 := by
    have h1 := Int.emod_nonneg (|destination - origin|) (by decide : (24 : Int) ≠ 0)
    have h2 := Int.emod_lt_of_pos (|destination - origin|) (by decide : (0 : Int) < 24)
    rw [abs_of_nonneg h1]
    omega
  refine ⟨?_, ?_, hs.2, hn.2⟩
  · rw [hs.1, hs.2]
    exact ofInt_of_lt _ hrange
  · rw [hn.1, hn.2]
    exact ofInt_of_lt _ hrange

/-- Witness of amended C7: the pincodes of the test-suite, nineteen apart. -/
theorem duration_eq_formula_witness :
    Number.estimatedRideDurationHours (.str (numeral 110020)) (.str (numeral 110001)) =
        .finite (|110020 - 110001| % 24) ∧
      Number.estimatedRideDurationHours (.num 110020) (.num 110001) =
        .finite (|110020 - 110001| % 24) ∧
      estimatedRideDurationHours (.str (numeral 110020)) (.str (numeral 110001)) =
        some (|110020 - 110001| % 24) ∧
      estimatedRideDurationHours (.num 110020) (.num 110001) =
        some (|110020 - 110001| % 24) :=
  duration_eq_formula 110001 110020 (by decide) (by decide) (by decide)


/-! ## Concurrent calls -/

/-- A call left to run without interruption is the sequential `createBooking`. -/
theorem finish_enter (D : DateParse) (db : Store) (body : BookingBody) :
    (Pending.enter body).finish D db =
      (.done (createBooking D db body).1, (createBooking D db body).2) := by
  unfold Pending.finish Pending.enter createBooking
  split
  · rfl
  · simp only [Pending.resume]
    cases Vehicle.findById db body.vehicleId with
    | error err => rfl
    | ok found =>
    cases found with
    | none => rfl
    | some v =>
    simp only [Pending.resume]
    cases Booking.findOne db (castObjectId body.vehicleId)
      (endDate (newDate D body.startTime)
        (estimatedRideDurationHours body.toPincode body.fromPincode))
      (newDate D body.startTime) with
    | error err => rfl
    | ok conflict =>
    cases conflict with
    | some c => rfl
    | none =>
    simp only [Pending.resume]
    cases Booking.create db.nextId body.vehicleId body.fromPincode body.toPincode
      (newDate D body.startTime)
      (endDate (newDate D body.startTime)
        (estimatedRideDurationHours body.toPincode body.fromPincode))
      body.customerId (estimatedRideDurationHours body.toPincode body.fromPincode) with
    | error err => rfl
    | ok booking =>
      simp only [Pending.resume]
      split <;> rfl

theorem resume_done (D : DateParse) (db : Store) (res : Response) :
    (Pending.done res).finish D db = (.done res, db) := rfl

theorem interleave_oneAfterTheOther (D : DateParse) (r : Race) :
    Race.interleave D oneAfterTheOther r =
      { db := (r.second.finish D (r.first.finish D r.db).2).2,
        first := (r.first.finish D r.db).1,
        second := (r.second.finish D (r.first.finish D r.db).2).1 } := by
  rfl


/-- C2, as stated, fails: the two test requests are for the same vehicle and
their windows overlap; when both calls are resumed through their vehicle lookup
and conflict query before either saves, both are answered with 201, both
bookings are stored and the database violates the no-overlap invariant. -/
theorem race_counterexample :
    testBooking.WellFormed isoDateParse 0 1698400800000 19 ∧
      conflictingBooking.WellFormed isoDateParse 0 1698418800000 19 ∧
      ((1698400800000 : Int) < 1698418800000 + 19 * 3600000 ∧
        (1698418800000 : Int) < 1698400800000 + 19 * 3600000) ∧
      (Race.interleave isoDateParse checksBeforeSaves testRace).first =
        .done { status := 201, body := .booking storedBooking (some testVehicle) } ∧
      (Race.interleave isoDateParse checksBeforeSaves testRace).second =
        .done { status := 201, body := .booking racedBooking (some testVehicle) } ∧
      (Race.interleave isoDateParse checksBeforeSaves testRace).db.bookings =
        [storedBooking, racedBooking] ∧
      ¬ NoOverlap (Race.interleave isoDateParse checksBeforeSaves testRace).db := by
  have hdb : (Race.interleave isoDateParse checksBeforeSaves testRace).db.bookings =
      [storedBooking, racedBooking] := by decide
  refine ⟨testBooking_wellFormed, conflictingBooking_wellFormed, by decide, by decide,
    by decide, hdb, ?_⟩
  intro h
  rw [noOverlap_iff_pairwise, hdb] at h
  have hrel : Compatible storedBooking racedBooking :=
    List.rel_of_pairwise_cons h (List.mem_singleton.mpr rfl)
  exact hrel rfl ⟨by decide, by decide⟩

/-- C2, amended. When two well-formed `createBooking` calls for the same stored
vehicle with overlapping windows are served one after the other and the first
is answered with 201, the second is answered with 409 "Vehicle is already
booked for this time slot." and stores nothing: exactly one of them succeeds.
The handler holds no lock across its `await`s, so nothing is claimed for calls
whose database queries interleave. -/
theorem sequential_calls_exclude (D : DateParse) (db : Store) (body1 body2 : BookingBody)
    (vid : ObjectId) (start1 hours1 start2 hours2 : Int) (v : Vehicle)
    (hw1 : body1.WellFormed D vid start1 hours1)
    (hw2 : body2.WellFormed D vid start2 hours2)
    (hv : db.vehicles.find? (fun v => v._id == vid) = some v)
    (hoverlap : start1 < start2 + hours2 * 3600000 ∧ start2 < start1 + hours1 * 3600000)
    (hfirst : (createBooking D db body1).1.status = 201) :
    Race.interleave D oneAfterTheOther
        { db := db, first := .enter body1, second := .enter body2 } =
      { db := (createBooking D db body1).2,
        first := .done (createBooking D db body1).1,
        second := .done
          { status := 409, body := .error "Vehicle is already booked for this time slot." } } := by
  rw [interleave_oneAfterTheOther]
  simp only [finish_enter]
  rcases createBooking_cases D db body1 with ⟨_, hne⟩ | ⟨b, hb⟩
  · exact absurd hfirst hne
  · have hbv : b.vehicleId = vid := by
      have := hb.vehicleId
      rw [hw1.vehicleId_ok] at this
      injection this with this
      exact this.symm
    have hbs : b.startTime = start1 := by
      have := hb.startTime
      rw [hw1.start_ok] at this
      injection this with this
      exact this.symm
    have hbh : b.estimatedRideDurationHours = hours1 := by
      have := hb.hours
      rw [hw1.hours_ok] at this
      injection this with this
      exact this.symm
    have hv2 : (createBooking D db body1).2.vehicles.find? (fun v => v._id == vid) = some v := by
      rw [hb.store]; exact hv
    rcases createBooking_wellFormed hw2 hv2 with ⟨_, heq⟩ | ⟨hfree, _⟩
    · rw [heq]
    · exfalso
      apply hfree b (by rw [hb.store]; simp) hbv
      constructor
      · rw [hbs]; exact hoverlap.1
      · rw [hb.endTime, hbs, hbh]; exact hoverlap.2

/-- Witness of amended C2: the two test requests served one after the other. -/
theorem sequential_calls_exclude_witness :
    testBooking.WellFormed isoDateParse 0 1698400800000 19 ∧
      conflictingBooking.WellFormed isoDateParse 0 1698418800000 19 ∧
      Race.interleave isoDateParse oneAfterTheOther
          { db := testDb, first := .enter testBooking, second := .enter conflictingBooking } =
        { db := (createBooking isoDateParse testDb testBooking).2,
          first := .done (createBooking isoDateParse testDb testBooking).1,
          second := .done
            { status := 409,
              body := .error "Vehicle is already booked for this time slot." } } :=
  ⟨testBooking_wellFormed, conflictingBooking_wellFormed,
    sequential_calls_exclude isoDateParse testDb testBooking conflictingBooking 0
      1698400800000 19 1698418800000 19
      testVehicle
      testBooking_wellFormed conflictingBooking_wellFormed (by decide) (by decide)
      (by decide)⟩

/-! ## Rejected requests -/

theorem Booking.findOne_invalid_end (db : Store) (vehicleId : Except Thrown ObjectId)
    (gt : JDate) : ∃ err, Booking.findOne db vehicleId none gt = .error err := by
  cases vehicleId with
  | error err => exact ⟨err, rfl⟩
  | ok vid => exact ⟨.castError, rfl⟩

theorem estimatedRideDurationHours_nan {toPincode fromPincode : JVal}
    (h : parseInt fromPincode = none ∨ parseInt toPincode = none) :
    estimatedRideDurationHours toPincode fromPincode = none := by
  unfold estimatedRideDurationHours
  rcases h with h | h
  · rw [h]; cases parseInt toPincode <;> rfl
  · rw [h]

theorem endDate_nan (start : JDate) : endDate start none = none := by
  cases start <;> rfl

theorem availableVehicles_invalid_end (db : Store) (start : JDate) (hours : JNum)
    (vehicles : List Vehicle) :
    availableVehicles db none start hours vehicles = .ok [] ∨
      ∃ err, availableVehicles db none start hours vehicles = .error err := by
  cases vehicles with
  | nil => left; rfl
  | cons v vs =>
    right
    obtain ⟨err, herr⟩ := Booking.findOne_invalid_end db (.ok v._id) start
    exact ⟨err, by simp only [availableVehicles, herr]⟩

/-- C11, as stated, fails: with the origin code `abc` the test request is
answered with 500, not 400; with the origin code `12ab34` it is answered with
201 and a booking is stored; and the availability query with the destination
code `abc` is answered with 500. -/
theorem non_numeric_code_counterexample :
    (createBooking isoDateParse testDb nonNumericBooking).1.status = 500 ∧
      (createBooking isoDateParse testDb digitsThenLettersBooking).1.status = 201 ∧
      (createBooking isoDateParse testDb digitsThenLettersBooking).2.bookings.length = 1 ∧
      (getAvailableVehicles isoDateParse testDb nonNumericQuery).1.status = 500 := by
  decide

/-- C11, amended. When every field of a `createBooking` request is present and
`parseInt` reads no number from `fromPincode` or from `toPincode`, no booking is
created: the database is left as it was and the answer is 404 or 500. When
every parameter of a `getAvailableVehicles` query is present and `parseInt`
reads no number from one of its codes, no vehicle is listed: the answer is 200
with an empty list or 500, and the database is left as it was. -/
theorem non_numeric_code_rejected (D : DateParse) (db : Store) (body : BookingBody)
    (query : AvailabilityQuery)
    (hpresent : body.vehicleId.truthy = true ∧ body.fromPincode.truthy = true ∧
      body.toPincode.truthy = true ∧ body.startTime.truthy = true ∧
      body.customerId.truthy = true)
    (hnan : parseInt body.fromPincode = none ∨ parseInt body.toPincode = none)
    (hqpresent : query.capacityRequired.truthy = true ∧ query.fromPincode.truthy = true ∧
      query.toPincode.truthy = true ∧ query.startTime.truthy = true)
    (hqnan : parseInt query.fromPincode = none ∨ parseInt query.toPincode = none) :
    ((createBooking D db body).2 = db ∧
        ((createBooking D db body).1.status = 404 ∨
          (createBooking D db body).1.status = 500)) ∧
      ((getAvailableVehicles D db query).2 = db ∧
        (getAvailableVehicles D db query).1.available = [] ∧
        ((getAvailableVehicles D db query).1.status = 200 ∨
          (getAvailableVehicles D db query).1.status = 500)) := by
  constructor
  · have hmiss : ¬ (!body.vehicleId.truthy || !body.fromPincode.truthy ||
        !body.toPincode.truthy || !body.startTime.truthy || !body.customerId.truthy) = true := by
      simp [hpresent.1, hpresent.2.1, hpresent.2.2.1, hpresent.2.2.2.1, hpresent.2.2.2.2]
    obtain ⟨err, herr⟩ := Booking.findOne_invalid_end db (castObjectId body.vehicleId)
      (newDate D body.startTime)
    simp only [createBooking, hmiss, Bool.false_eq_true, ↓reduceIte,
      estimatedRideDurationHours_nan hnan, endDate_nan, herr]
    cases Vehicle.findById db body.vehicleId with
    | error e => exact ⟨rfl, Or.inr rfl⟩
    | ok found =>
      cases found with
      | none => exact ⟨rfl, Or.inl rfl⟩
      | some v => exact ⟨rfl, Or.inr rfl⟩
  · have hmiss : ¬ (!query.capacityRequired.truthy || !query.fromPincode.truthy ||
        !query.toPincode.truthy || !query.startTime.truthy) = true := by
      simp [hqpresent.1, hqpresent.2.1, hqpresent.2.2.1, hqpresent.2.2.2]
    simp only [getAvailableVehicles, hmiss, Bool.false_eq_true, ↓reduceIte,
      estimatedRideDurationHours_nan hqnan, endDate_nan]
    cases castNumber (parseInt query.capacityRequired) with
    | error e => exact ⟨rfl, rfl, Or.inr rfl⟩
    | ok capacity =>
      dsimp only
      rcases availableVehicles_invalid_end db (newDate D query.startTime) none
        (db.vehicles.filter (fun v => v.capacityKg ≥ capacity)) with h | ⟨err, h⟩
      · rw [h]; exact ⟨rfl, rfl, Or.inl rfl⟩
      · rw [h]; exact ⟨rfl, rfl, Or.inr rfl⟩

/-- Witness of amended C11: the test request and the test query with the code `abc`. -/
theorem non_numeric_code_rejected_witness :
    parseInt nonNumericBooking.fromPincode = none ∧
      parseInt nonNumericQuery.toPincode = none ∧
      (createBooking isoDateParse testDb nonNumericBooking).2 = testDb ∧
      (getAvailableVehicles isoDateParse testDb nonNumericQuery).1.available = [] :=
  ⟨by decide, by decide,
    (non_numeric_code_rejected isoDateParse testDb nonNumericBooking nonNumericQuery
      (by decide) (Or.inl (by decide)) (by decide) (Or.inr (by decide))).1.1,
    (non_numeric_code_rejected isoDateParse testDb nonNumericBooking nonNumericQuery
      (by decide) (Or.inl (by decide)) (by decide) (Or.inr (by decide))).2.2.1⟩

/-- C12. A well-formed `createBooking` request whose vehicle identifier is the
identifier of no stored vehicle is answered with 404 "Vehicle not found", and
the database is left as it was. -/
theorem unknown_vehicle_rejected (D : DateParse) (db : Store) (body : BookingBody)
    (vid : ObjectId) (start hours : Int)
    (hw : body.WellFormed D vid start hours)
    (hunknown : ∀ v ∈ db.vehicles, v._id ≠ vid) :
    createBooking D db body = ({ status := 404, body := .error "Vehicle not found" }, db) := by
  have hmiss : ¬ (!body.vehicleId.truthy || !body.fromPincode.truthy ||
      !body.toPincode.truthy || !body.startTime.truthy || !body.customerId.truthy) = true := by
    simp [hw.present.1, hw.present.2.1, hw.present.2.2.1, hw.present.2.2.2.1,
      hw.present.2.2.2.2]
  have hfind : Vehicle.findById db body.vehicleId = .ok none := by
    have hnone : db.vehicles.find? (fun v => v._id == vid) = none := by
      rw [List.find?_eq_none]
      intro v hv hp
      exact hunknown v hv (by simpa using hp)
    simp [Vehicle.findById, hw.vehicleId_ok, bind, Except.bind, pure, Except.pure, hnone]
  simp only [createBooking, hmiss, Bool.false_eq_true, ↓reduceIte, hfind]

/-- Witness of C12: the request of the test-suite for the identifier
`507f1f77bcf86cd799439011`, which no stored vehicle has. -/
theorem unknown_vehicle_rejected_witness :
    unknownVehicleBooking.WellFormed isoDateParse 24912482966938930280208240657
        1698400800000 19 ∧
      createBooking isoDateParse testDb unknownVehicleBooking =
        ({ status := 404, body := .error "Vehicle not found" }, testDb) :=
  ⟨⟨by decide, rfl, by decide, by decide, by decide⟩,
    unknown_vehicle_rejected isoDateParse testDb unknownVehicleBooking
      24912482966938930280208240657 1698400800000 19
      ⟨by decide, rfl, by decide, by decide, by decide⟩ (by decide)⟩

/-! ## Effect and response of a successful `createBooking` -/

/-- C14. After a call of `createBooking` answered with 201 the bookings are
those before the call followed by exactly one new booking, whose `vehicleId`,
`fromPincode`, `toPincode`, `customerId` and `startTime` are the values of the
request as the schema casts them (a string is stored as it is, the identifier
as the `ObjectId` it denotes, the start as the instant it denotes); the
vehicles are unchanged. -/
theorem created_effect (D : DateParse) (db : Store) (body : BookingBody)
    (h201 : (createBooking D db body).1.status = 201) :
    ∃ b, (createBooking D db body).2.bookings = db.bookings ++ [b] ∧
      (createBooking D db body).2.vehicles = db.vehicles ∧
      castObjectId body.vehicleId = .ok b.vehicleId ∧
      castString body.fromPincode = .ok b.fromPincode ∧
      castString body.toPincode = .ok b.toPincode ∧
      castString body.customerId = .ok b.customerId ∧
      newDate D body.startTime = some b.startTime ∧
      (∀ s, body.fromPincode = .str s → b.fromPincode = s) ∧
      (∀ s, body.toPincode = .str s → b.toPincode = s) ∧
      (∀ s, body.customerId = .str s → b.customerId = s) := by
  rcases createBooking_cases D db body with ⟨_, hne⟩ | ⟨b, hb⟩
  · exact absurd h201 hne
  · refine ⟨b, by rw [hb.store], by rw [hb.store], hb.vehicleId, hb.fromPincode, hb.toPincode,
      hb.customerId, hb.startTime, ?_, ?_, ?_⟩
    · intro s hs
      have := hb.fromPincode
      rw [hs] at this
      injection this with this
      exact this.symm
    · intro s hs
      have := hb.toPincode
      rw [hs] at this
      injection this with this
      exact this.symm
    · intro s hs
      have := hb.customerId
      rw [hs] at this
      injection this with this
      exact this.symm

/-- Witness of C14: the test request stores the test booking. -/
theorem created_effect_witness :
    (createBooking isoDateParse testDb testBooking).2.bookings = testDb.bookings ++ [storedBooking] ∧
      ∃ b, (createBooking isoDateParse testDb testBooking).2.bookings = testDb.bookings ++ [b] ∧
        (createBooking isoDateParse testDb testBooking).2.vehicles = testDb.vehicles ∧
        castObjectId testBooking.vehicleId = .ok b.vehicleId ∧
        castString testBooking.fromPincode = .ok b.fromPincode ∧
        castString testBooking.toPincode = .ok b.toPincode ∧
        castString testBooking.customerId = .ok b.customerId ∧
        newDate isoDateParse testBooking.startTime = some b.startTime ∧
        (∀ s, testBooking.fromPincode = .str s → b.fromPincode = s) ∧
        (∀ s, testBooking.toPincode = .str s → b.toPincode = s) ∧
        (∀ s, testBooking.customerId = .str s → b.customerId = s) :=
  ⟨by decide, created_effect isoDateParse testDb testBooking (by decide)⟩

/-- C15, evaluated on the request of "should create a booking with valid data":
the body sent with 201 is the stored booking with its `vehicleId` path replaced,
by `populate`, with the vehicle document; the pincodes and the duration are
those of the request. -/
theorem created_response_populated :
    (createBooking isoDateParse testDb testBooking).1 =
        { status := 201, body := .booking storedBooking (some testVehicle) } ∧
      storedBooking.fromPincode = "110001" ∧ storedBooking.toPincode = "110020" ∧
      storedBooking.estimatedRideDurationHours = |(110020 : Int) - 110001| % 24 := by
  decide

/-! ## Cancellation and cascade delete -/

/-- C16, as stated, fails: the identifier `abc` is the identifier of no stored
booking, and `deleteBooking` answers it with 500, not 404. -/
theorem cancel_counterexample :
    (∀ b ∈ bookedDb.bookings, castObjectId (.str "abc") ≠ .ok b._id) ∧
      (deleteBooking bookedDb "abc").1.status = 500 ∧
      (deleteBooking bookedDb "abc").1.status ≠ 404 := by
  refine ⟨?_, by decide, by decide⟩
  intro b _ h
  exact absurd h (by simp [castObjectId])

/-- C16, amended. For an identifier that is a well-formed `ObjectId`: when a
booking with that identifier is stored, `deleteBooking` answers 200 and removes
that booking (the first with the identifier) and nothing else, every other
booking and every vehicle being unchanged; when none is stored it answers 404
"Booking not found" and leaves the database as it was. -/
theorem cancel_effect (db : Store) (id : String) (oid : ObjectId)
    (hid : castObjectId (.str id) = .ok oid) :
    ((∃ b ∈ db.bookings, b._id = oid) →
        (deleteBooking db id).1 =
          { status := 200, body := .message "Booking cancelled successfully" } ∧
        (deleteBooking db id).2.vehicles = db.vehicles ∧
        ∃ before b after, db.bookings = before ++ b :: after ∧ b._id = oid ∧
          (∀ c ∈ before, c._id ≠ oid) ∧
          (deleteBooking db id).2.bookings = before ++ after) ∧
      ((∀ b ∈ db.bookings, b._id ≠ oid) →
        deleteBooking db id = ({ status := 404, body := .error "Booking not found" }, db)) := by
  constructor
  · rintro ⟨b0, hb0, hb0id⟩
    cases hfind : db.bookings.find? (fun b => b._id == oid) with
    | none =>
      rw [List.find?_eq_none] at hfind
      exact absurd (by simpa using hb0id) (hfind b0 hb0)
    | some b =>
      obtain ⟨hp, before, after, hsplit, hbefore⟩ := List.find?_eq_some.mp hfind
      have hbid : b._id = oid := by simpa using hp
      have hnot : ∀ c ∈ before, c._id ≠ oid := by
        intro c hc
        simpa using hbefore c hc
      have hnotin : b ∉ before := fun hmem => hnot b hmem hbid
      simp only [deleteBooking, hid, hfind]
      refine ⟨trivial, trivial, before, b, after, hsplit, hbid, hnot, ?_⟩
      rw [hsplit, List.erase_append_right _ hnotin, List.erase_cons_head]
  · intro hnone
    have hfind : db.bookings.find? (fun b => b._id == oid) = none := by
      rw [List.find?_eq_none]
      intro b hb hp
      exact hnone b hb (by simpa using hp)
    simp only [deleteBooking, hid, hfind]

/-- Witness of amended C16: cancelling the stored test booking, whose identifier is 1. -/
theorem cancel_effect_witness :
    castObjectId (.str "000000000000000000000001") = .ok 1 ∧
      (deleteBooking bookedDb "000000000000000000000001").2.bookings = [] ∧
      (deleteBooking bookedDb "000000000000000000000001").1 =
        { status := 200, body := .message "Booking cancelled successfully" } :=
  ⟨rfl, by decide,
    ((cancel_effect bookedDb "000000000000000000000001" 1 rfl).1
      ⟨storedBooking, by decide, rfl⟩).1⟩

/-- C17. For the identifier of a stored vehicle, `deleteVehicle` answers 200,
removes that vehicle (the first with the identifier) and exactly the bookings
whose `vehicleId` is the identifier, keeps every other vehicle and booking in
place, and reports as `deletedBookingsCount` the number of bookings that
referenced the vehicle, which is the number of bookings removed. -/
theorem cascade_delete (db : Store) (id : String) (oid : ObjectId)
    (hid : castObjectId (.str id) = .ok oid)
    (hstored : ∃ v ∈ db.vehicles, v._id = oid) :
    (deleteVehicle db id).1 =
        { status := 200,
          body := .vehicleDeleted "Vehicle deleted successfully"
            (db.bookings.countP (fun b => decide (b.vehicleId = oid))) } ∧
      (deleteVehicle db id).2.bookings =
        db.bookings.filter (fun b => decide (b.vehicleId ≠ oid)) ∧
      (∀ b, b ∈ (deleteVehicle db id).2.bookings ↔ b ∈ db.bookings ∧ b.vehicleId ≠ oid) ∧
      db.bookings.countP (fun b => decide (b.vehicleId = oid)) +
          (deleteVehicle db id).2.bookings.length = db.bookings.length ∧
      ∃ before v after, db.vehicles = before ++ v :: after ∧ v._id = oid ∧
        (∀ w ∈ before, w._id ≠ oid) ∧ (deleteVehicle db id).2.vehicles = before ++ after := by
  obtain ⟨v0, hv0, hv0id⟩ := hstored
  cases hfind : db.vehicles.find? (fun v => v._id == oid) with
  | none =>
    rw [List.find?_eq_none] at hfind
    exact absurd (by simpa using hv0id) (hfind v0 hv0)
  | some v =>
    obtain ⟨hp, before, after, hsplit, hbefore⟩ := List.find?_eq_some.mp hfind
    have hvid : v._id = oid := by simpa using hp
    have hnot : ∀ w ∈ before, w._id ≠ oid := by
      intro w hw
      simpa using hbefore w hw
    have hnotin : v ∉ before := fun hmem => hnot v hmem hvid
    have hbyid : Vehicle.findById db (.str id) = .ok (some v) := by
      simp [Vehicle.findById, hid, bind, Except.bind, pure, Except.pure, hfind]
    have hfilter : db.bookings.filter (fun b => !(b.vehicleId == oid)) =
        db.bookings.filter (fun b => decide (b.vehicleId ≠ oid)) := by
      apply List.filter_congr
      intro b _
      by_cases h : b.vehicleId = oid <;> simp [h]
    have hcount : (db.bookings.filter (fun b => b.vehicleId == oid)).length =
        db.bookings.countP (fun b => decide (b.vehicleId = oid)) := by
      rw [List.countP_eq_length_filter]
      congr 1
    simp only [deleteVehicle, hbyid, hid, hfind, hfilter, hcount]
    refine ⟨trivial, trivial, ?_, ?_, before, v, after, hsplit, hvid, hnot, ?_⟩
    · intro b
      simp [List.mem_filter]
    · have h1 := List.length_eq_countP_add_countP (fun b => decide (b.vehicleId = oid))
        db.bookings
      rw [h1, List.countP_eq_length_filter (l := db.bookings)
        (p := fun b => decide (¬ decide (b.vehicleId = oid) = true))]
      congr 2
      apply List.filter_congr
      intro b _
      by_cases h : b.vehicleId = oid <;> simp [h]
    · rw [hsplit, List.erase_append_right _ hnotin, List.erase_cons_head]

/-- Witness of C17: deleting the test vehicle removes it and its one booking. -/
theorem cascade_delete_witness :
    castObjectId (.str "000000000000000000000000") = .ok 0 ∧
      (deleteVehicle bookedDb "000000000000000000000000").2.bookings = [] ∧
      (deleteVehicle bookedDb "000000000000000000000000").2.vehicles = [] ∧
      (deleteVehicle bookedDb "000000000000000000000000").1 =
        { status := 200,
          body := .vehicleDeleted "Vehicle deleted successfully"
            (bookedDb.bookings.countP (fun b => decide (b.vehicleId = 0))) } ∧
      bookedDb.bookings.countP (fun b => decide (b.vehicleId = 0)) = 1 :=
  ⟨rfl, by decide, by decide,
    (cascade_delete bookedDb "000000000000000000000000" 0 rfl
      ⟨testVehicle, by decide, rfl⟩).1, by decide⟩

/-- C18, as stated, fails twice. The identifier `abc` is the identifier of no
stored vehicle, and `deleteVehicle` answers it with 500, not 404. And when the
test vehicle is deleted and `Vehicle.findByIdAndDelete` of line 143 is rejected
after `Booking.deleteMany` of line 140 has been served, the call answers 500,
the vehicle is still stored and its booking is gone. -/
theorem failed_delete_counterexample :
    (∀ v ∈ bookedDb.vehicles, castObjectId (.str "abc") ≠ .ok v._id) ∧
      (deleteVehicle bookedDb "abc").1.status = 500 ∧
      (deleteVehicle bookedDb "abc").1.status ≠ 404 ∧
      (deleteVehicleRejecting bookedDb "000000000000000000000000" 2 .databaseError).1 =
        serverError .databaseError ∧
      (serverError .databaseError).status = 500 ∧
      (deleteVehicleRejecting bookedDb "000000000000000000000000" 2 .databaseError).2.vehicles =
        [testVehicle] ∧
      (deleteVehicleRejecting bookedDb "000000000000000000000000" 2 .databaseError).2.bookings =
        [] ∧
      bookedDb.bookings = [storedBooking] := by
  refine ⟨?_, by decide, by decide, by decide, by decide, by decide, by decide, by decide⟩
  intro v _ h
  exact absurd h (by simp [castObjectId])

/-- C18, amended. When the identifier is a well-formed `ObjectId` that no stored
vehicle has, `deleteVehicle` answers 404 "Vehicle not found" and deletes
nothing. Whenever a call all of whose queries are served answers with a status
other than 200, for any identifier, every vehicle and every booking is still
stored, unchanged. When a query may be rejected: an answer 404 leaves the
database unchanged, and so does the rejection of `Vehicle.findById`, the read
that comes first; every answer other than 200 leaves the vehicles unchanged,
and the bookings either unchanged or without the bookings of the vehicle. -/
theorem failed_delete_unchanged (db : Store) (id : String) :
    (∀ oid, castObjectId (.str id) = .ok oid → (∀ v ∈ db.vehicles, v._id ≠ oid) →
        deleteVehicle db id = ({ status := 404, body := .error "Vehicle not found" }, db)) ∧
      ((deleteVehicle db id).1.status ≠ 200 →
        (deleteVehicle db id).2 = db ∧ (deleteVehicle db id).2.vehicles = db.vehicles ∧
          (deleteVehicle db id).2.bookings = db.bookings) ∧
      (∀ served err, (deleteVehicleRejecting db id served err).1.status = 404 →
        (deleteVehicleRejecting db id served err).2 = db) ∧
      (∀ err, (deleteVehicleRejecting db id 0 err).2 = db) ∧
      (∀ served err, (deleteVehicleRejecting db id served err).1.status ≠ 200 →
        (deleteVehicleRejecting db id served err).2.vehicles = db.vehicles ∧
          ((deleteVehicleRejecting db id served err).2.bookings = db.bookings ∨
            ∃ oid, castObjectId (.str id) = .ok oid ∧
              (deleteVehicleRejecting db id served err).2.bookings =
                db.bookings.filter (fun b => !(b.vehicleId == oid)))) ∧
      (∀ served err, 3 ≤ served → deleteVehicleRejecting db id served err = deleteVehicle db id) := by
  refine ⟨?_, ?_, ?_, ?_, ?_, ?_⟩
  · intro oid hid hnone
    have hfind : db.vehicles.find? (fun v => v._id == oid) = none := by
      rw [List.find?_eq_none]
      intro v hv hp
      exact hnone v hv (by simpa using hp)
    have hbyid : Vehicle.findById db (.str id) = .ok none := by
      simp [Vehicle.findById, hid, bind, Except.bind, pure, Except.pure, hfind]
    simp only [deleteVehicle, hbyid]
  · intro hfail
    have hdb : (deleteVehicle db id).2 = db := by
      unfold deleteVehicle at hfail ⊢
      split
      · rfl
      · rfl
      · rename_i v hv
        rw [hv] at hfail
        dsimp only at hfail
        split
        · rfl
        · rename_i oid hoid
          rw [hoid] at hfail
          exact absurd rfl hfail
    rw [hdb]
    exact ⟨rfl, rfl, rfl⟩
  · intro served err h404
    unfold deleteVehicleRejecting at h404 ⊢
    by_cases h0 : served = 0
    · simp only [h0, ↓reduceIte]
    · simp only [h0, ↓reduceIte] at h404 ⊢
      split
      · rfl
      · rfl
      · rename_i v hv
        rw [hv] at h404
        dsimp only at h404
        by_cases h1 : served = 1
        · simp only [h1, ↓reduceIte]
        · simp only [h1, ↓reduceIte] at h404 ⊢
          split
          · rfl
          · rename_i oid hoid
            rw [hoid] at h404
            dsimp only at h404
            by_cases h2 : served = 2
            · simp only [h2, ↓reduceIte] at h404
              simp [serverError] at h404
            · simp only [h2, ↓reduceIte] at h404
              simp at h404
  · intro err
    simp [deleteVehicleRejecting]
  · intro served err hfail
    unfold deleteVehicleRejecting at hfail ⊢
    by_cases h0 : served = 0
    · simp only [h0, ↓reduceIte]
      exact ⟨trivial, Or.inl trivial⟩
    · simp only [h0, ↓reduceIte] at hfail ⊢
      split
      · exact ⟨rfl, Or.inl rfl⟩
      · exact ⟨rfl, Or.inl rfl⟩
      · rename_i v hv
        rw [hv] at hfail
        dsimp only at hfail
        by_cases h1 : served = 1
        · simp only [h1, ↓reduceIte]
          exact ⟨trivial, Or.inl trivial⟩
        · simp only [h1, ↓reduceIte] at hfail ⊢
          split
          · exact ⟨rfl, Or.inl rfl⟩
          · rename_i oid hoid
            rw [hoid] at hfail
            dsimp only at hfail
            by_cases h2 : served = 2
            · simp only [h2, ↓reduceIte]
              exact ⟨trivial, Or.inr ⟨oid, hoid, rfl⟩⟩
            · simp only [h2, ↓reduceIte] at hfail
              exact absurd rfl hfail
  · intro served err hle
    have h0 : served ≠ 0 := by omega
    have h1 : served ≠ 1 := by omega
    have h2 : served ≠ 2 := by omega
    unfold deleteVehicleRejecting deleteVehicle
    simp only [h0, h1, h2, ↓reduceIte]

/-- Witness of amended C18: the identifier of the test-suite that no vehicle has. -/
theorem failed_delete_unchanged_witness :
    castObjectId (.str "507f1f77bcf86cd799439011") = .ok 24912482966938930280208240657 ∧
      deleteVehicle bookedDb "507f1f77bcf86cd799439011" =
        ({ status := 404, body := .error "Vehicle not found" }, bookedDb) ∧
      (deleteVehicle bookedDb "abc").2 = bookedDb :=
  ⟨rfl,
    (failed_delete_unchanged bookedDb "507f1f77bcf86cd799439011").1
      24912482966938930280208240657 rfl (by decide),
    ((failed_delete_unchanged bookedDb "abc").2.1 (by decide)).1⟩

/-! ## Availability search -/

/-- C19. On a well-formed query `getAvailableVehicles` answers 200 with exactly
the stored vehicles whose `capacityKg` is at least the required capacity and
that have no stored booking `B` with `B.startTime < queryEnd` and
`queryStart < B.endTime`, in stored order and each as often as it is stored,
every one annotated with the estimated duration, which is
`|toPincode - fromPincode| mod 24`. -/
theorem availability_exact (D : DateParse) (db : Store) (query : AvailabilityQuery)
    (capacity start hours : Int) (hq : query.WellFormed D capacity start hours) :
    (getAvailableVehicles D db query).1.status = 200 ∧
      (getAvailableVehicles D db query).1.available.map Prod.fst =
        db.vehicles.filter (fun v => decide (capacity ≤ v.capacityKg ∧
          ¬ ∃ B ∈ db.bookings, B.vehicleId = v._id ∧
            B.startTime < start + hours * 3600000 ∧ start < B.endTime)) ∧
      (∀ entry ∈ (getAvailableVehicles D db query).1.available, entry.2 = some hours) ∧
      ∃ origin destination, parseInt query.fromPincode = some origin ∧
        parseInt query.toPincode = some destination ∧
        hours = |destination - origin| % 24 := by
  rw [getAvailableVehicles_wellFormed hq db]
  refine ⟨rfl, ?_, ?_, ?_⟩
  · simp only [Response.available, List.map_map, List.filter_filter]
    have hid : (Prod.fst ∘ fun v : Vehicle => (v, some hours)) = id := rfl
    rw [hid, List.map_id]
    apply List.filter_congr
    intro v _
    have key : db.free v._id start (start + hours * 3600000) ↔
        ¬ ∃ B ∈ db.bookings, B.vehicleId = v._id ∧
          B.startTime < start + hours * 3600000 ∧ start < B.endTime := by
      constructor
      · rintro hfree ⟨B, hB, hBv, h1, h2⟩
        exact hfree B hB hBv ⟨h1, h2⟩
      · intro hno c hc hcv ho
        exact hno ⟨c, hc, hcv, ho.1, ho.2⟩
    by_cases hcap : capacity ≤ v.capacityKg
    · by_cases hfree : db.free v._id start (start + hours * 3600000)
      · have hno := key.mp hfree
        simp [hcap, hfree, hno]
      · have hex : ∃ B ∈ db.bookings, B.vehicleId = v._id ∧
            B.startTime < start + hours * 3600000 ∧ start < B.endTime := by
          by_contra hno
          exact hfree (key.mpr hno)
        simp [hcap, hfree, hex]
    · simp [hcap]
  · intro entry hentry
    simp only [Response.available, List.mem_map] at hentry
    obtain ⟨v, _, rfl⟩ := hentry
    rfl
  · have hh := hq.hours_ok
    unfold estimatedRideDurationHours at hh
    cases hto : parseInt query.toPincode with
    | none => simp [hto] at hh
    | some t =>
      cases hfrom : parseInt query.fromPincode with
      | none => simp [hto, hfrom] at hh
      | some f =>
        simp only [hto, hfrom, Option.some.injEq] at hh
        refine ⟨f, t, rfl, rfl, ?_⟩
        rw [← hh, Int.tmod_eq_emod (abs_nonneg _) (by decide)]

/-- Witness of C19: of a fleet of two vehicles, the first booked from 10:00, the
query for 12:00 lists the second only, with the duration 19. -/
theorem availability_exact_witness :
    noonQuery.WellFormed isoDateParse 500 1698408000000 19 ∧
      (getAvailableVehicles isoDateParse fleetDb noonQuery).1.available =
        [({ _id := 1, name := "Truck 2", capacityKg := 1500, tyres := 8 }, some 19)] ∧
      (getAvailableVehicles isoDateParse fleetDb noonQuery).1.status = 200 :=
  ⟨⟨by decide, by decide, by decide, by decide, by decide⟩, by decide,
    (availability_exact isoDateParse fleetDb noonQuery 500 1698408000000 19
      ⟨by decide, by decide, by decide, by decide, by decide⟩).1⟩

/-- C20. A call of `getAvailableVehicles` leaves the vehicles and the bookings as
they were, and a second call with the same query on the same database gives
the same response: the same vehicles in the same order with the same
annotations. -/
theorem availability_read_only (D : DateParse) (db : Store) (query : AvailabilityQuery) :
    (getAvailableVehicles D db query).2 = db ∧
      (getAvailableVehicles D db query).2.vehicles = db.vehicles ∧
      (getAvailableVehicles D db query).2.bookings = db.bookings ∧
      getAvailableVehicles D (getAvailableVehicles D db query).2 query =
        getAvailableVehicles D db query ∧
      (getAvailableVehicles D (getAvailableVehicles D db query).2 query).1.available =
        (getAvailableVehicles D db query).1.available := by
  have h := getAvailableVehicles_store D db query
  rw [h]
  exact ⟨rfl, rfl, rfl, rfl, rfl⟩

/-! ## Validation of the availability query and outcomes of the handlers -/

/-- C21. A `getAvailableVehicles` request in which `capacityRequired`,
`fromPincode`, `toPincode` or `startTime` is absent, `null` or the empty string
is answered with 400 and the message "Missing required query parameters:
capacityRequired, fromPincode, toPincode, startTime", whatever the database
holds, and the database is left as it was. -/
theorem missing_parameter_rejected (D : DateParse) (db : Store) (query : AvailabilityQuery)
    (hmissing : query.capacityRequired.missing ∨ query.fromPincode.missing ∨
      query.toPincode.missing ∨ query.startTime.missing) :
    getAvailableVehicles D db query =
        ({ status := 400,
           body := .error
            "Missing required query parameters: capacityRequired, fromPincode, toPincode, startTime" },
          db) ∧
      "Missing required query parameters".data.isPrefixOf
        "Missing required query parameters: capacityRequired, fromPincode, toPincode, startTime".data
        = true := by
  have key : ∀ v : JVal, v.missing → v.truthy = false := by
    intro v hv
    rcases hv with h | h | h <;> subst h <;> rfl
  refine ⟨?_, by decide⟩
  unfold getAvailableVehicles
  rw [if_pos]
  rcases hmissing with h | h | h | h <;> simp [key _ h]

/-- Witness of C21: the query of "should fail with missing query parameters",
which carries the capacity only. -/
theorem missing_parameter_rejected_witness :
    (getAvailableVehicles isoDateParse testDb
        { capacityRequired := .str "500", fromPincode := .undefined, toPincode := .undefined,
          startTime := .undefined }).1.status = 400 :=
  congrArg (fun r => r.1.status)
    (missing_parameter_rejected isoDateParse testDb
      { capacityRequired := .str "500", fromPincode := .undefined, toPincode := .undefined,
        startTime := .undefined } (Or.inr (Or.inl (Or.inl rfl)))).1

/-- C22, as stated, fails: each of the four handlers answers some request with
the generic 500 "Server error": `createBooking` for a vehicle identifier that is
not an `ObjectId` and for a start time that is not a date, `deleteBooking` and
`deleteVehicle` for the identifier `abc`, and `getAvailableVehicles` for a start
time that is not a date. -/
theorem typed_outcomes_counterexample :
    (createBooking isoDateParse testDb malformedIdBooking).1 = serverError .castError ∧
      (createBooking isoDateParse testDb unparseableStartBooking).1 = serverError .castError ∧
      (deleteBooking testDb "abc").1 = serverError .castError ∧
      (deleteVehicle testDb "abc").1 = serverError .castError ∧
      (getAvailableVehicles isoDateParse testDb unparseableStartQuery).1 =
        serverError .castError ∧
      (serverError .castError).status = 500 := by
  decide

theorem createBooking_status (D : DateParse) (db : Store) (body : BookingBody) :
    (createBooking D db body).1.status ∈ [201, 400, 404, 409, 500] := by
  unfold createBooking
  split
  · simp
  · dsimp only
    split
    · simp [serverError]
    · simp
    · split
      · simp [serverError]
      · simp
      · split
        · simp [serverError]
        · split <;> simp

theorem deleteBooking_status (db : Store) (id : String) :
    (deleteBooking db id).1.status ∈ [200, 404, 500] := by
  unfold deleteBooking
  split
  · simp [serverError]
  · split <;> simp

theorem deleteVehicle_status (db : Store) (id : String) :
    (deleteVehicle db id).1.status ∈ [200, 404, 500] := by
  unfold deleteVehicle
  split
  · simp [serverError]
  · simp
  · split
    · simp [serverError]
    · simp

theorem getAvailableVehicles_status (D : DateParse) (db : Store) (query : AvailabilityQuery) :
    (getAvailableVehicles D db query).1.status ∈ [200, 400, 500] := by
  unfold getAvailableVehicles
  split
  · simp
  · dsimp only
    split
    · simp [serverError]
    · split <;> simp [serverError]

theorem createBooking_wellFormed_status {D : DateParse} {db : Store} {body : BookingBody}
    {vid : ObjectId} {start hours : Int} (hw : body.WellFormed D vid start hours) :
    (createBooking D db body).1.status ∈ [201, 404, 409] := by
  cases hfind : db.vehicles.find? (fun v => v._id == vid) with
  | none =>
    have hmiss : ¬ (!body.vehicleId.truthy || !body.fromPincode.truthy ||
        !body.toPincode.truthy || !body.startTime.truthy || !body.customerId.truthy) = true := by
      simp [hw.present.1, hw.present.2.1, hw.present.2.2.1, hw.present.2.2.2.1,
        hw.present.2.2.2.2]
    have hbyid : Vehicle.findById db body.vehicleId = .ok none := by
      simp [Vehicle.findById, hw.vehicleId_ok, bind, Except.bind, pure, Except.pure, hfind]
    simp [createBooking, hmiss, hbyid]
  | some v =>
    rcases createBooking_wellFormed hw hfind with ⟨_, heq⟩ | ⟨_, b, hb⟩
    · rw [heq]; simp
    · rw [hb.status]; simp

theorem deleteBooking_wellFormed_status {db : Store} {id : String} {oid : ObjectId}
    (hid : castObjectId (.str id) = .ok oid) : (deleteBooking db id).1.status ∈ [200, 404] := by
  unfold deleteBooking
  rw [hid]
  dsimp only
  split <;> simp

theorem deleteVehicle_wellFormed_status {db : Store} {id : String} {oid : ObjectId}
    (hid : castObjectId (.str id) = .ok oid) : (deleteVehicle db id).1.status ∈ [200, 404] := by
  unfold deleteVehicle
  split
  · rename_i err herr
    simp [Vehicle.findById, hid, bind, Except.bind, pure, Except.pure] at herr
  · simp
  · rw [hid]
    simp

/-- C22, amended. Each of `createBooking`, `deleteBooking`, `deleteVehicle` and
`getAvailableVehicles` answers every request with its success status, with one
of the statuses 400, 404 and 409, or with the 500 "Server error" of its `catch`
clause; and a well-formed request is never answered with 500: a well-formed
booking request gets 201, 404 or 409, an identifier that is a well-formed
`ObjectId` gets 200 or 404 from both delete handlers, and a well-formed
availability query gets 200. -/
theorem typed_outcomes (D : DateParse) (db : Store) :
    (∀ body, (createBooking D db body).1.status ∈ [201, 400, 404, 409, 500]) ∧
      (∀ id, (deleteBooking db id).1.status ∈ [200, 404, 500]) ∧
      (∀ id, (deleteVehicle db id).1.status ∈ [200, 404, 500]) ∧
      (∀ query, (getAvailableVehicles D db query).1.status ∈ [200, 400, 500]) ∧
      (∀ body vid start hours, BookingBody.WellFormed D body vid start hours →
        (createBooking D db body).1.status ∈ [201, 404, 409]) ∧
      (∀ id oid, castObjectId (.str id) = .ok oid →
        (deleteBooking db id).1.status ∈ [200, 404] ∧
          (deleteVehicle db id).1.status ∈ [200, 404]) ∧
      (∀ query capacity start hours, AvailabilityQuery.WellFormed D query capacity start hours →
        (getAvailableVehicles D db query).1.status = 200) := by
  refine ⟨createBooking_status D db, deleteBooking_status db, deleteVehicle_status db,
    getAvailableVehicles_status D db, ?_, ?_, ?_⟩
  · intro body vid start hours hw
    exact createBooking_wellFormed_status hw
  · intro id oid hid
    exact ⟨deleteBooking_wellFormed_status hid, deleteVehicle_wellFormed_status hid⟩
  · intro query capacity start hours hq
    rw [getAvailableVehicles_wellFormed hq db]

/-- Witness of amended C22: the well-formed test request on the database that
holds the test vehicle. -/
theorem typed_outcomes_witness :
    testBooking.WellFormed isoDateParse 0 1698400800000 19 ∧
      (createBooking isoDateParse testDb testBooking).1.status ∈ [201, 404, 409] :=
  ⟨testBooking_wellFormed,
    (typed_outcomes isoDateParse testDb).2.2.2.2.1 testBooking 0 1698400800000 19
      testBooking_wellFormed⟩

/-! ## Vehicles -/

theorem str_truthy_iff (s : String) : (JVal.str s).truthy = true ↔ s ≠ "" := by
  cases s with
  | mk data =>
    cases data with
    | nil => simp [JVal.truthy]
    | cons c cs =>
      simp only [JVal.truthy, List.isEmpty_cons, Bool.not_false, true_iff]
      intro h
      have hdata := congrArg String.data h
      exact absurd hdata (by simp)

/-- C23. The handler `createVehicle` answers 201 exactly when the name is a
non-empty string, `capacityKg` a number that is at least 1 and `tyres` a number
that is at least 2, and then stores one vehicle with exactly that name,
capacity and number of tyres; every other body is answered with 400 and the
database is left as it was. -/
theorem createVehicle_validation (db : Store) (body : VehicleBody) :
    (∀ name capacityKg tyres, body.Valid name capacityKg tyres →
        createVehicle db body =
          ({ status := 201,
             body := .vehicle { _id := db.nextId, name := name, capacityKg := capacityKg,
                                tyres := tyres } },
           { db with
             vehicles := db.vehicles ++
               [{ _id := db.nextId, name := name, capacityKg := capacityKg, tyres := tyres }],
             nextId := db.nextId + 1 })) ∧
      ((¬ ∃ name capacityKg tyres, body.Valid name capacityKg tyres) →
        (createVehicle db body).1.status = 400 ∧ (createVehicle db body).2 = db) ∧
      ((createVehicle db body).1.status = 201 ↔
        ∃ name capacityKg tyres, body.Valid name capacityKg tyres) := by
  have hvalid : ∀ name capacityKg tyres, body.Valid name capacityKg tyres →
      createVehicle db body =
        ({ status := 201,
           body := .vehicle { _id := db.nextId, name := name, capacityKg := capacityKg,
                              tyres := tyres } },
         { db with
           vehicles := db.vehicles ++
             [{ _id := db.nextId, name := name, capacityKg := capacityKg, tyres := tyres }],
           nextId := db.nextId + 1 }) := by
    rintro name capacityKg tyres ⟨hn, hc, ht, hne, hcap, hty⟩
    have h1 : (JVal.str name).truthy = true := (str_truthy_iff name).mpr hne
    have h2 : (JVal.num capacityKg).truthy = true := by
      simp only [JVal.truthy, bne_iff_ne, ne_eq]; omega
    have h3 : (JVal.num tyres).truthy = true := by
      simp only [JVal.truthy, bne_iff_ne, ne_eq]; omega
    have h4 : ¬ (capacityKg < 1 ∨ tyres < 2) := by omega
    simp [createVehicle, hn, hc, ht, h1, h2, h3, JVal.isString, JVal.isNumber, h4]
  have hinvalid : (¬ ∃ name capacityKg tyres, body.Valid name capacityKg tyres) →
      (createVehicle db body).1.status = 400 ∧ (createVehicle db body).2 = db := by
    intro hno
    unfold createVehicle
    split
    · exact ⟨rfl, rfl⟩
    · rename_i hguard
      split
      · rename_i name capacityKg tyres hn hc ht
        split
        · exact ⟨rfl, rfl⟩
        · rename_i hbounds
          exfalso
          apply hno
          refine ⟨name, capacityKg, tyres, hn, hc, ht, ?_, ?_, ?_⟩
          · apply (str_truthy_iff name).mp
            simp only [hn, hc, ht, Bool.or_eq_true, Bool.not_eq_true', not_or,
              Bool.not_eq_false] at hguard
            exact hguard.1.1.1.1.1
          · simp only [Bool.or_eq_true, decide_eq_true_eq, not_or, not_lt] at hbounds
            exact hbounds.1
          · simp only [Bool.or_eq_true, decide_eq_true_eq, not_or, not_lt] at hbounds
            exact hbounds.2
      · rename_i hcase
        exfalso
        simp only [Bool.or_eq_true, Bool.not_eq_true', not_or, Bool.not_eq_false] at hguard
        obtain ⟨⟨⟨⟨⟨_, hs⟩, _⟩, hcn⟩, _⟩, htn⟩ := hguard
        cases hname : body.name <;> simp [hname, JVal.isString] at hs
        cases hcap : body.capacityKg <;> simp [hcap, JVal.isNumber] at hcn
        cases hty : body.tyres <;> simp [hty, JVal.isNumber] at htn
        exact hcase _ _ _ hname hcap hty
  refine ⟨hvalid, hinvalid, ?_⟩
  constructor
  · intro h201
    by_contra hno
    have := (hinvalid hno).1
    rw [this] at h201
    exact absurd h201 (by decide)
  · rintro ⟨name, capacityKg, tyres, hv⟩
    rw [hvalid name capacityKg tyres hv]

/-- Witness of C23: the vehicle of "should create a vehicle with valid data". -/
theorem createVehicle_validation_witness :
    VehicleBody.Valid { name := .str "Truck A", capacityKg := .num 1000, tyres := .num 6 }
        "Truck A" 1000 6 ∧
      (createVehicle Store.empty
        { name := .str "Truck A", capacityKg := .num 1000, tyres := .num 6 }).2.vehicles =
        [{ _id := 0, name := "Truck A", capacityKg := 1000, tyres := 6 }] ∧
      (createVehicle Store.empty
        { name := .str "", capacityKg := .str "not-a-number", tyres := .num 6 }).1.status = 400 :=
  ⟨⟨rfl, rfl, rfl, by decide, by decide, by decide⟩,
    congrArg (fun r => r.2.vehicles)
      ((createVehicle_validation Store.empty
        { name := .str "Truck A", capacityKg := .num 1000, tyres := .num 6 }).1 "Truck A" 1000 6
        ⟨rfl, rfl, rfl, by decide, by decide, by decide⟩),
    by decide⟩

/-- C24, evaluated: after registering the test vehicle, the update
`{ "capacityKg": 0 }` of that vehicle is answered with 200 and the stored
vehicle has capacity 0, below the bound that `createVehicle` enforces. -/
theorem update_breaks_vehicle_bounds :
    (updateVehicle testDb "000000000000000000000000" zeroCapacity).1.status = 200 ∧
      (run isoDateParse [.createVehicle testTruck,
        .updateVehicle "000000000000000000000000" zeroCapacity]).vehicles =
        [{ _id := 0, name := "Test Truck", capacityKg := 0, tyres := 6 }] ∧
      ¬ ∀ v ∈ (run isoDateParse [.createVehicle testTruck,
        .updateVehicle "000000000000000000000000" zeroCapacity]).vehicles, v.Sound := by
  decide

/-! ## Referential integrity -/

theorem replace_keeps_ids (l : List Vehicle) (a a' : Vehicle) (h : a'._id = a._id)
    (id : ObjectId) (hex : ∃ v ∈ l, v._id = id) : ∃ v ∈ l.replace a a', v._id = id := by
  induction l with
  | nil => simp at hex
  | cons x xs ih =>
    obtain ⟨v, hv, hvid⟩ := hex
    rw [List.replace_cons]
    by_cases hxa : x = a
    · subst hxa
      simp only [beq_self_eq_true]
      rcases List.mem_cons.mp hv with hvx | hvxs
      · exact ⟨a', List.mem_cons_self _ _, by rw [h, ← hvx, hvid]⟩
      · exact ⟨v, List.mem_cons_of_mem _ hvxs, hvid⟩
    · have hbeq : (a == x) = false := by simpa using Ne.symm hxa
      simp only [hbeq]
      rcases List.mem_cons.mp hv with hvx | hvxs
      · exact ⟨x, List.mem_cons_self _ _, by rw [← hvx, hvid]⟩
      · obtain ⟨w, hw, hwid⟩ := ih ⟨v, hvxs, hvid⟩
        exact ⟨w, List.mem_cons_of_mem _ hw, hwid⟩

theorem createVehicle_keeps_ids (db : Store) (body : VehicleBody) (id : ObjectId)
    (hex : ∃ v ∈ db.vehicles, v._id = id) :
    ∃ v ∈ (createVehicle db body).2.vehicles, v._id = id := by
  obtain ⟨v, hv, hvid⟩ := hex
  unfold createVehicle
  split
  · exact ⟨v, hv, hvid⟩
  · split
    · split
      · exact ⟨v, hv, hvid⟩
      · exact ⟨v, List.mem_append_left _ hv, hvid⟩
    · exact ⟨v, hv, hvid⟩

theorem updateVehicle_keeps_ids (db : Store) (id' : String) (update : VehicleUpdate)
    (id : ObjectId) (hex : ∃ v ∈ db.vehicles, v._id = id) :
    ∃ v ∈ (updateVehicle db id' update).2.vehicles, v._id = id := by
  unfold updateVehicle
  split
  · exact hex
  · exact hex
  · rename_i vehicle _
    exact replace_keeps_ids db.vehicles vehicle (update.apply vehicle) rfl id hex

theorem deleteBooking_vehicles (db : Store) (id : String) :
    (deleteBooking db id).2.vehicles = db.vehicles := by
  unfold deleteBooking
  split
  · rfl
  · split <;> rfl

theorem deleteVehicle_referential (db : Store) (id : String) (h : Referential db) :
    Referential (deleteVehicle db id).2 := by
  unfold deleteVehicle
  split
  · exact h
  · exact h
  · split
    · exact h
    · rename_i oid hoid
      intro b hb
      simp only [List.mem_filter, Bool.not_eq_true', beq_eq_false_iff_ne, ne_eq] at hb
      obtain ⟨v, hv, hvid⟩ := h b hb.1
      refine ⟨v, ?_, hvid⟩
      dsimp only
      split
      · rename_i w hw
        have hwid : w._id = oid := by simpa using List.find?_some hw
        have hne : v ≠ w := by
          intro heq
          apply hb.2
          rw [← hvid, heq, hwid]
        exact (List.mem_erase_of_ne hne).mpr hv
      · exact hv

theorem serve_referential (D : DateParse) (db : Store) (op : Op) (h : Referential db) :
    Referential (op.serve D db).2 := by
  cases op with
  | createVehicle body =>
    intro b hb
    simp only [Op.serve, createVehicle_bookings] at hb
    exact createVehicle_keeps_ids db body _ (h b hb)
  | updateVehicle id update =>
    intro b hb
    simp only [Op.serve, updateVehicle_bookings] at hb
    exact updateVehicle_keeps_ids db id update _ (h b hb)
  | createBooking body =>
    rcases createBooking_cases D db body with ⟨hs, _⟩ | ⟨b, hb⟩
    · simpa [Op.serve, hs] using h
    · intro c hc
      simp only [Op.serve, hb.store, List.mem_append, List.mem_singleton] at hc ⊢
      rcases hc with hc | hc
      · exact h c hc
      · subst hc
        obtain ⟨v, hv⟩ := hb.vehicle
        exact ⟨v, List.mem_of_find?_eq_some hv, by simpa using List.find?_some hv⟩
  | deleteBooking id =>
    intro b hb
    have hb' := (deleteBooking_sublist db id).subset hb
    simp only [Op.serve, deleteBooking_vehicles]
    exact h b hb'
  | deleteVehicle id => exact deleteVehicle_referential db id h
  | getAvailableVehicles query => simpa [Op.serve, getAvailableVehicles_store] using h

/-- C25. In the database reached from the empty one by any sequence of
`createVehicle`, `updateVehicle`, `createBooking`, `deleteBooking` and
`deleteVehicle` requests served one after the other (availability searches may
be mixed in), the `vehicleId` of every stored booking is the identifier of a
stored vehicle. -/
theorem referential_run (D : DateParse) (ops : List Op) : Referential (run D ops) := by
  unfold run
  have key : ∀ (ops : List Op) (db : Store), Referential db →
      Referential (ops.foldl (fun db op => (op.serve D db).2) db) := by
    intro ops
    induction ops with
    | nil => intro db h; exact h
    | cons op ops ih => intro db h; exact ih _ (serve_referential D db op h)
  exact key ops Store.empty (by intro b hb; simp [Store.empty] at hb)

/-! ## Booking and availability -/

theorem wellFormed_of_created {D : DateParse} {db : Store} {body : BookingBody} {b : Booking}
    (hb : Created D db body b) :
    body.WellFormed D b.vehicleId b.startTime b.estimatedRideDurationHours := by
  refine ⟨hb.present, hb.vehicleId, hb.hours, hb.startTime, ?_⟩
  have hw := hb.window
  rw [hb.startTime, hb.hours] at hw
  rw [hw, hb.endTime]

theorem castObjectId_truthy {v : JVal} {oid : ObjectId} (h : castObjectId v = .ok oid) :
    v.truthy = true := by
  cases v with
  | str s =>
    cases hd : s.data with
    | nil => simp [castObjectId, hd] at h
    | cons c cs => simp [JVal.truthy, hd]
  | _ => simp [castObjectId] at h

theorem find?_of_mem {db : Store} {V : Vehicle} (hV : V ∈ db.vehicles) :
    ∃ v, db.vehicles.find? (fun v => v._id == V._id) = some v := by
  cases hfind : db.vehicles.find? (fun v => v._id == V._id) with
  | some v => exact ⟨v, rfl⟩
  | none =>
    rw [List.find?_eq_none] at hfind
    exact absurd (by simp) (hfind V hV)

theorem createBooking_unknown {D : DateParse} {db : Store} {body : BookingBody}
    {vid : ObjectId} {start hours : Int} (hw : body.WellFormed D vid start hours)
    (hfind : db.vehicles.find? (fun v => v._id == vid) = none) :
    createBooking D db body = ({ status := 404, body := .error "Vehicle not found" }, db) := by
  have hmiss : ¬ (!body.vehicleId.truthy || !body.fromPincode.truthy ||
      !body.toPincode.truthy || !body.startTime.truthy || !body.customerId.truthy) = true := by
    simp [hw.present.1, hw.present.2.1, hw.present.2.2.1, hw.present.2.2.2.1,
      hw.present.2.2.2.2]
  have hbyid : Vehicle.findById db body.vehicleId = .ok none := by
    simp [Vehicle.findById, hw.vehicleId_ok, bind, Except.bind, pure, Except.pure, hfind]
  simp only [createBooking, hmiss, Bool.false_eq_true, ↓reduceIte, hbyid]

/-- The status of a well-formed request for a stored vehicle is 201 when the
vehicle is free during the window and 409 otherwise. -/
theorem createBooking_free_iff {D : DateParse} {db : Store} {body : BookingBody}
    {vid : ObjectId} {start hours : Int} (hw : body.WellFormed D vid start hours)
    {v : Vehicle} (hv : db.vehicles.find? (fun v => v._id == vid) = some v) :
    ((createBooking D db body).1.status = 201 ↔ db.free vid start (start + hours * 3600000)) ∧
      ((createBooking D db body).1.status = 409 ↔
        ¬ db.free vid start (start + hours * 3600000)) := by
  rcases createBooking_wellFormed hw hv with ⟨⟨c, hc, hcv, hco⟩, heq⟩ | ⟨hfree, b, hb⟩
  · have hnot : ¬ db.free vid start (start + hours * 3600000) := fun h => h c hc hcv hco
    rw [heq]
    have h409 : (409 : Nat) ≠ 201 := by decide
    exact ⟨⟨fun h => absurd h h409, fun h => absurd h hnot⟩, fun _ => hnot, fun _ => rfl⟩
  · rw [hb.status]
    have h201 : (201 : Nat) ≠ 409 := by decide
    exact ⟨⟨fun _ => hfree, fun _ => rfl⟩, fun h => absurd h h201,
      fun h => absurd hfree h⟩

/-- C26. For a stored vehicle `V`, a well-formed availability query whose
required capacity is at most `V.capacityKg`, and a booking request for `V` with
the pincodes and the start time of the query and any present customer, `V` is
listed by `getAvailableVehicles` if and only if `createBooking` answers 201 on
the same database. -/
theorem available_iff_bookable (D : DateParse) (db : Store) (V : Vehicle)
    (query : AvailabilityQuery) (body : BookingBody) (capacity start hours : Int)
    (hV : V ∈ db.vehicles)
    (hq : query.WellFormed D capacity start hours)
    (hcap : capacity ≤ V.capacityKg)
    (hid : castObjectId body.vehicleId = .ok V._id)
    (hfrom : body.fromPincode = query.fromPincode)
    (hto : body.toPincode = query.toPincode)
    (hstart : body.startTime = query.startTime)
    (hcustomer : body.customerId.truthy = true) :
    (∃ entry ∈ (getAvailableVehicles D db query).1.available, entry.1 = V) ↔
      (createBooking D db body).1.status = 201 := by
  have hw : body.WellFormed D V._id start hours :=
    ⟨⟨castObjectId_truthy hid, by rw [hfrom]; exact hq.present.2.1,
        by rw [hto]; exact hq.present.2.2.1, by rw [hstart]; exact hq.present.2.2.2, hcustomer⟩,
      hid, by rw [hto, hfrom]; exact hq.hours_ok, by rw [hstart]; exact hq.start_ok,
      hq.window_ok⟩
  obtain ⟨v, hv⟩ := find?_of_mem hV
  rw [(createBooking_free_iff hw hv).1, getAvailableVehicles_wellFormed hq db]
  simp only [Response.available, List.mem_map, List.mem_filter, decide_eq_true_eq,
    exists_exists_and_eq_and]
  constructor
  · rintro ⟨w, ⟨⟨_, _⟩, hfree⟩, rfl⟩
    exact hfree
  · intro hfree
    exact ⟨V, ⟨⟨hV, hcap⟩, hfree⟩, rfl⟩

/-- Witness of C26: the test vehicle is listed for the test query on the
database without bookings, and the test request is answered with 201. -/
theorem available_iff_bookable_witness :
    testQuery.WellFormed isoDateParse 500 1698400800000 19 ∧
      ((∃ entry ∈ (getAvailableVehicles isoDateParse testDb testQuery).1.available,
          entry.1 = testVehicle) ↔
        (createBooking isoDateParse testDb testBooking).1.status = 201) ∧
      (createBooking isoDateParse testDb testBooking).1.status = 201 :=
  ⟨testQuery_wellFormed,
    available_iff_bookable isoDateParse testDb testVehicle testQuery testBooking 500
      1698400800000 19 (by decide) testQuery_wellFormed (by decide) rfl rfl rfl rfl
      (by decide),
    by decide⟩

/-- C27. The status with which `createBooking` answers a well-formed request for
vehicle `X` is the same on two databases that agree on whether `X` is stored
and on the set of bookings whose `vehicleId` is `X`: bookings of other vehicles
neither cause nor prevent a conflict. -/
theorem per_vehicle_isolation (D : DateParse) (db1 db2 : Store) (body : BookingBody)
    (X : ObjectId) (start hours : Int)
    (hw : body.WellFormed D X start hours)
    (hvehicle : (∃ v ∈ db1.vehicles, v._id = X) ↔ (∃ v ∈ db2.vehicles, v._id = X))
    (hbookings : ∀ b, (b ∈ db1.bookings ∧ b.vehicleId = X) ↔
      (b ∈ db2.bookings ∧ b.vehicleId = X)) :
    (createBooking D db1 body).1.status = (createBooking D db2 body).1.status := by
  have hfree : db1.free X start (start + hours * 3600000) ↔
      db2.free X start (start + hours * 3600000) := by
    constructor
    · intro h c hc hcv
      exact h c ((hbookings c).mpr ⟨hc, hcv⟩).1 hcv
    · intro h c hc hcv
      exact h c ((hbookings c).mp ⟨hc, hcv⟩).1 hcv
  have hstored : ∀ db : Store, (∃ v ∈ db.vehicles, v._id = X) ↔
      ∃ v, db.vehicles.find? (fun v => v._id == X) = some v := by
    intro db
    constructor
    · rintro ⟨v, hv, hvid⟩
      cases hfind : db.vehicles.find? (fun v => v._id == X) with
      | some w => exact ⟨w, rfl⟩
      | none =>
        rw [List.find?_eq_none] at hfind
        exact absurd (by simpa using hvid) (hfind v hv)
    · rintro ⟨v, hv⟩
      exact ⟨v, List.mem_of_find?_eq_some hv, by simpa using List.find?_some hv⟩
  have hstatus : ∀ db : Store, (createBooking D db body).1.status =
      if ∃ v ∈ db.vehicles, v._id = X then
        (if db.free X start (start + hours * 3600000) then 201 else 409)
      else 404 := by
    intro db
    by_cases hex : ∃ v ∈ db.vehicles, v._id = X
    · obtain ⟨v, hv⟩ := (hstored db).mp hex
      rw [if_pos hex]
      by_cases hf : db.free X start (start + hours * 3600000)
      · rw [if_pos hf]; exact (createBooking_free_iff hw hv).1.mpr hf
      · rw [if_neg hf]; exact (createBooking_free_iff hw hv).2.mpr hf
    · rw [if_neg hex]
      have hnone : db.vehicles.find? (fun v => v._id == X) = none := by
        cases hfind : db.vehicles.find? (fun v => v._id == X) with
        | none => rfl
        | some w => exact absurd ((hstored db).mpr ⟨w, hfind⟩) hex
      rw [createBooking_unknown hw hnone]
  rw [hstatus db1, hstatus db2]
  simp only [hvehicle, hfree]

/-- Witness of C27: a booking of another vehicle over the same window does not
change the answer to the test request. -/
theorem per_vehicle_isolation_witness :
    testBooking.WellFormed isoDateParse 0 1698400800000 19 ∧
      (createBooking isoDateParse testDb testBooking).1.status =
        (createBooking isoDateParse otherVehicleDb testBooking).1.status ∧
      (createBooking isoDateParse otherVehicleDb testBooking).1.status = 201 :=
  ⟨testBooking_wellFormed,
    per_vehicle_isolation isoDateParse testDb otherVehicleDb testBooking 0 1698400800000 19
      testBooking_wellFormed (by decide)
      (by
        intro b
        constructor
        · rintro ⟨hb, _⟩
          have hnil : testDb.bookings = [] := by decide
          rw [hnil] at hb
          exact absurd hb (List.not_mem_nil b)
        · rintro ⟨hb, hbv⟩
          have hb7 : b = { storedBooking with vehicleId := 7 } := by
            simpa [otherVehicleDb] using hb
          rw [hb7] at hbv
          exact absurd hbv (by decide)),
    by decide⟩

/-! ## Zero duration, round trip and monotonicity -/

theorem created_unique {D : DateParse} {db : Store} {body : BookingBody} {b b' : Booking}
    (hb : Created D db body b) (hb' : Created D db body b') : b = b' := by
  have h := hb.store
  rw [hb'.store] at h
  have hlist : db.bookings ++ [b'] = db.bookings ++ [b] := congrArg Store.bookings h
  have := List.append_cancel_left hlist
  simpa using this.symm

/-- The booking stored for a request depends on the database only through the
identifier it receives. -/
theorem created_same_fields {D : DateParse} {db db' : Store} {body : BookingBody}
    {b b' : Booking} (hb : Created D db body b) (hb' : Created D db' body b') :
    b' = { b with _id := db'.nextId } := by
  have h1 := hb.vehicleId.symm.trans hb'.vehicleId
  have h2 := hb.startTime.symm.trans hb'.startTime
  have h3 := hb.hours.symm.trans hb'.hours
  have h4 := hb.window.symm.trans hb'.window
  have h5 := hb.fromPincode.symm.trans hb'.fromPincode
  have h6 := hb.toPincode.symm.trans hb'.toPincode
  have h7 := hb.customerId.symm.trans hb'.customerId
  have h8 := hb'.id
  injection h1 with h1
  injection h2 with h2
  injection h3 with h3
  injection h4 with h4
  injection h5 with h5
  injection h6 with h6
  injection h7 with h7
  cases b
  cases b'
  simp_all

/-- C28. When the difference of the two pincodes is a multiple of 24 the
computed duration is 0, and a request answered with 201 stores a booking whose
`endTime` is its `startTime`; that booking does not overlap its own window, so
the same request is answered with 201 again and the two bookings, equal but for
their identifiers, are both stored. -/
theorem zero_duration_repeat (D : DateParse) (db : Store) (body : BookingBody)
    (origin destination : Int)
    (hfrom : parseInt body.fromPincode = some origin)
    (hto : parseInt body.toPincode = some destination)
    (hdiv : (24 : Int) ∣ destination - origin)
    (h201 : (createBooking D db body).1.status = 201) :
    estimatedRideDurationHours body.toPincode body.fromPincode = some 0 ∧
      ∃ b1 b2, (createBooking D db body).2.bookings = db.bookings ++ [b1] ∧
        b1.estimatedRideDurationHours = 0 ∧ b1.endTime = b1.startTime ∧
        ¬ overlaps b1 b1.startTime b1.endTime ∧
        (createBooking D (createBooking D db body).2 body).1.status = 201 ∧
        (createBooking D (createBooking D db body).2 body).2.bookings =
          db.bookings ++ [b1, b2] ∧
        b2 = { b1 with _id := b1._id + 1 } ∧ ¬ Booking.overlap b1 b2 := by
  have hzero : estimatedRideDurationHours body.toPincode body.fromPincode = some 0 := by
    unfold estimatedRideDurationHours
    rw [hto, hfrom]
    simp only [Option.some.injEq]
    rw [Int.tmod_eq_emod (abs_nonneg _) (by decide)]
    exact Int.emod_eq_zero_of_dvd ((dvd_abs _ _).mpr hdiv)
  refine ⟨hzero, ?_⟩
  rcases createBooking_cases D db body with ⟨_, hne⟩ | ⟨b1, hb1⟩
  · exact absurd h201 hne
  · have hh : b1.estimatedRideDurationHours = 0 := by
      have := hb1.hours
      rw [hzero] at this
      injection this with this
      exact this.symm
    have hend : b1.endTime = b1.startTime := by
      have := hb1.endTime
      rw [hh] at this
      omega
    have hself : ¬ overlaps b1 b1.startTime b1.endTime := by
      rintro ⟨h1, _⟩
      omega
    have hw := wellFormed_of_created hb1
    obtain ⟨v, hv⟩ := hb1.vehicle
    have hv2 : (createBooking D db body).2.vehicles.find? (fun v => v._id == b1.vehicleId)
        = some v := by
      rw [hb1.store]; exact hv
    rcases createBooking_wellFormed hw hv2 with ⟨⟨c, hc, hcv, hco⟩, _⟩ | ⟨_, b2, hb2⟩
    · exfalso
      rw [hb1.store] at hc
      simp only [List.mem_append, List.mem_singleton] at hc
      have hwin : b1.startTime + b1.estimatedRideDurationHours * 3600000 = b1.endTime :=
        hb1.endTime.symm
      rw [hwin] at hco
      rcases hc with hc | hc
      · exact hb1.free c hc hcv hco
      · subst hc
        exact hself hco
    · have hb2eq := created_same_fields hb1 hb2
      have hnext : (createBooking D db body).2.nextId = b1._id + 1 := by
        rw [hb1.store, hb1.id]
      rw [hnext] at hb2eq
      refine ⟨b1, b2, by rw [hb1.store], hh, hend, hself, hb2.status, ?_, hb2eq, ?_⟩
      · rw [hb2.store, hb1.store]
        simp
      · rw [hb2eq]
        rintro ⟨h1, _⟩
        simp only at h1
        omega

/-- Witness of C28: the request with equal pincodes at 10:00, made twice. -/
theorem zero_duration_repeat_witness :
    (createBooking isoDateParse testDb emptyWindowBooking).1.status = 201 ∧
      (createBooking isoDateParse emptyWindowDb emptyWindowBooking).1.status = 201 ∧
      (createBooking isoDateParse emptyWindowDb emptyWindowBooking).2.bookings.length = 2 ∧
      estimatedRideDurationHours emptyWindowBooking.toPincode emptyWindowBooking.fromPincode =
        some 0 :=
  ⟨by decide, by decide, by decide,
    (zero_duration_repeat isoDateParse testDb emptyWindowBooking 110001 110001 (by decide)
      (by decide) (by decide) (by decide)).1⟩

theorem createVehicle_nextId (db : Store) (body : VehicleBody) :
    db.nextId ≤ (createVehicle db body).2.nextId := by
  unfold createVehicle
  split
  · exact le_refl _
  · split
    · split
      · exact le_refl _
      · exact Nat.le_succ _
    · exact le_refl _

theorem updateVehicle_nextId (db : Store) (id : String) (update : VehicleUpdate) :
    (updateVehicle db id update).2.nextId = db.nextId := by
  unfold updateVehicle
  split <;> rfl

theorem deleteBooking_nextId (db : Store) (id : String) :
    (deleteBooking db id).2.nextId = db.nextId := by
  unfold deleteBooking
  split
  · rfl
  · split <;> rfl

theorem deleteVehicle_nextId (db : Store) (id : String) :
    (deleteVehicle db id).2.nextId = db.nextId := by
  unfold deleteVehicle
  split
  · rfl
  · rfl
  · split <;> rfl

theorem serve_freshIds (D : DateParse) (db : Store) (op : Op) (h : FreshIds db) :
    FreshIds (op.serve D db).2 := by
  cases op with
  | createVehicle body =>
    intro c hc
    simp only [Op.serve, createVehicle_bookings] at hc
    exact lt_of_lt_of_le (h c hc) (createVehicle_nextId db body)
  | updateVehicle id update =>
    intro c hc
    simp only [Op.serve, updateVehicle_bookings] at hc
    simp only [Op.serve, updateVehicle_nextId]
    exact h c hc
  | createBooking body =>
    rcases createBooking_cases D db body with ⟨hs, _⟩ | ⟨b, hb⟩
    · simpa [Op.serve, hs] using h
    · intro c hc
      simp only [Op.serve, hb.store, List.mem_append, List.mem_singleton] at hc ⊢
      rcases hc with hc | hc
      · exact Nat.lt_succ_of_lt (h c hc)
      · subst hc
        rw [hb.id]
        exact Nat.lt_succ_self _
  | deleteBooking id =>
    intro c hc
    simp only [Op.serve, deleteBooking_nextId]
    exact h c ((deleteBooking_sublist db id).subset hc)
  | deleteVehicle id =>
    intro c hc
    simp only [Op.serve, deleteVehicle_nextId]
    exact h c ((deleteVehicle_sublist db id).subset hc)
  | getAvailableVehicles query => simpa [Op.serve, getAvailableVehicles_store] using h

/-- In every database reached from the empty one the identifier of the next
saved document is the identifier of no stored booking. -/
theorem run_freshIds (D : DateParse) (ops : List Op) :
    ∀ c ∈ (run D ops).bookings, c._id ≠ (run D ops).nextId := by
  have key : ∀ (ops : List Op) (db : Store), FreshIds db →
      FreshIds (ops.foldl (fun db op => (op.serve D db).2) db) := by
    intro ops
    induction ops with
    | nil => intro db h; exact h
    | cons op ops ih => intro db h; exact ih _ (serve_freshIds D db op h)
  have hfresh : FreshIds (run D ops) :=
    key ops Store.empty (by intro c hc; simp [Store.empty] at hc)
  intro c hc
  exact Nat.ne_of_lt (hfresh c hc)


/-- C29. Let `createBooking` answer 201 and store the new booking `b`, whose
identifier no booking stored before has. Then `deleteBooking` for the identifier
of `b` answers 200 and leaves the vehicles and the bookings exactly as they
were before the `createBooking`, and the same request is answered with 201
once more. -/
theorem create_then_cancel (D : DateParse) (db : Store) (body : BookingBody) (b : Booking)
    (id : String)
    (hfresh : ∀ c ∈ db.bookings, c._id ≠ db.nextId)
    (h201 : (createBooking D db body).1.status = 201)
    (hnew : (createBooking D db body).2.bookings = db.bookings ++ [b])
    (hid : castObjectId (.str id) = .ok b._id) :
    (deleteBooking (createBooking D db body).2 id).1 =
        { status := 200, body := .message "Booking cancelled successfully" } ∧
      (deleteBooking (createBooking D db body).2 id).2.bookings = db.bookings ∧
      (deleteBooking (createBooking D db body).2 id).2.vehicles = db.vehicles ∧
      (createBooking D (deleteBooking (createBooking D db body).2 id).2 body).1.status = 201 := by
  rcases createBooking_cases D db body with ⟨_, hne⟩ | ⟨b', hb⟩
  · exact absurd h201 hne
  · have hbb : b' = b := by
      have h := hb.store
      have hlist : (createBooking D db body).2.bookings = db.bookings ++ [b'] := by rw [h]
      rw [hnew] at hlist
      simpa using (List.append_cancel_left hlist).symm
    subst hbb
    have hnotin : b' ∉ db.bookings := fun hmem => hfresh b' hmem hb.id
    have hfind : (db.bookings ++ [b']).find? (fun c => c._id == b'._id) = some b' := by
      rw [List.find?_append]
      have hnone : db.bookings.find? (fun c => c._id == b'._id) = none := by
        rw [List.find?_eq_none]
        intro c hc hp
        exact hfresh c hc (by rw [← hb.id]; simpa using hp)
      rw [hnone]
      simp
    have hdel : deleteBooking (createBooking D db body).2 id =
        ({ status := 200, body := .message "Booking cancelled successfully" },
         { vehicles := db.vehicles, bookings := db.bookings, nextId := db.nextId + 1 }) := by
      rw [hb.store]
      simp only [deleteBooking, hid, hfind]
      rw [List.erase_append_right _ hnotin, List.erase_cons_head, List.append_nil]
    rw [hdel]
    refine ⟨rfl, rfl, rfl, ?_⟩
    have hw := wellFormed_of_created hb
    obtain ⟨v, hv⟩ := hb.vehicle
    have key : (createBooking D (Store.mk db.vehicles db.bookings (db.nextId + 1)) body).1.status
        = 201 := by
      rcases @createBooking_wellFormed D (Store.mk db.vehicles db.bookings (db.nextId + 1))
        body _ _ _ hw v hv with ⟨⟨c, hc, hcv, hco⟩, _⟩ | ⟨_, b2, hb2⟩
      · exfalso
        have hwin : b'.startTime + b'.estimatedRideDurationHours * 3600000 = b'.endTime :=
          hb.endTime.symm
        rw [hwin] at hco
        exact hb.free c hc hcv hco
      · exact hb2.status
    exact key

/-- Witness of C29: the test booking, whose identifier is 1, created and cancelled. -/
theorem create_then_cancel_witness :
    (createBooking isoDateParse testDb testBooking).1.status = 201 ∧
      (deleteBooking bookedDb "000000000000000000000001").2.bookings = testDb.bookings ∧
      (deleteBooking bookedDb "000000000000000000000001").2.vehicles = testDb.vehicles ∧
      (createBooking isoDateParse
        (deleteBooking bookedDb "000000000000000000000001").2 testBooking).1.status = 201 :=
  ⟨by decide,
    (create_then_cancel isoDateParse testDb testBooking storedBooking
      "000000000000000000000001" (by decide) (by decide) (by decide) rfl).2⟩

/-- C30. For two well-formed availability queries that differ in the required
capacity only, `c1 ≤ c2`, the vehicles listed for `c2` are the vehicles listed
for `c1` whose `capacityKg` is at least `c2`, in the same relative order; so
every vehicle listed for `c2` is listed for `c1`. -/
theorem capacity_monotone (D : DateParse) (db : Store) (query : AvailabilityQuery)
    (capacityRequired : JVal) (c1 c2 start hours : Int)
    (hq1 : query.WellFormed D c1 start hours)
    (hq2 : (query.withCapacity capacityRequired).WellFormed D c2 start hours)
    (hle : c1 ≤ c2) :
    (getAvailableVehicles D db (query.withCapacity capacityRequired)).1.available =
        (getAvailableVehicles D db query).1.available.filter
          (fun entry => decide (c2 ≤ entry.1.capacityKg)) ∧
      (∀ entry ∈ (getAvailableVehicles D db (query.withCapacity capacityRequired)).1.available,
        entry ∈ (getAvailableVehicles D db query).1.available) ∧
      ((getAvailableVehicles D db (query.withCapacity capacityRequired)).1.available).Sublist
        (getAvailableVehicles D db query).1.available := by
  have heq : (getAvailableVehicles D db (query.withCapacity capacityRequired)).1.available =
      (getAvailableVehicles D db query).1.available.filter
        (fun entry => decide (c2 ≤ entry.1.capacityKg)) := by
    rw [getAvailableVehicles_wellFormed hq1 db, getAvailableVehicles_wellFormed hq2 db]
    simp only [Response.available, List.filter_map, List.filter_filter]
    congr 1
    apply List.filter_congr
    intro v _
    by_cases h2 : c2 ≤ v.capacityKg
    · have h1 : c1 ≤ v.capacityKg := le_trans hle h2
      simp [h1, h2]
    · simp [h2]
  refine ⟨heq, ?_, ?_⟩
  · intro entry hentry
    rw [heq] at hentry
    exact (List.mem_filter.mp hentry).1
  · rw [heq]
    exact List.filter_sublist _

/-- Witness of C30: the test vehicle of capacity 1000 is listed for 500 and not
for 1200. -/
theorem capacity_monotone_witness :
    heavyQuery.WellFormed isoDateParse 1200 1698400800000 19 ∧
      (getAvailableVehicles isoDateParse testDb heavyQuery).1.available = [] ∧
      (getAvailableVehicles isoDateParse testDb testQuery).1.available =
        [(testVehicle, some 19)] ∧
      (getAvailableVehicles isoDateParse testDb (testQuery.withCapacity (.str "1200"))).1.available
        = (getAvailableVehicles isoDateParse testDb testQuery).1.available.filter
          (fun entry => decide (1200 ≤ entry.1.capacityKg)) :=
  ⟨⟨by decide, by decide, by decide, by decide, by decide⟩, by decide, by decide,
    (capacity_monotone isoDateParse testDb testQuery (.str "1200") 500 1200 1698400800000 19
      testQuery_wellFormed ⟨by decide, by decide, by decide, by decide, by decide⟩
      (by decide)).1⟩

/-! ## Failure atomicity -/

theorem consistent_failed (db : Store) (res : Response) (h : res.status ≠ 201) :
    Pending.Consistent db (.done res, db) := Or.inl ⟨rfl, h⟩

theorem consistent_enter (db : Store) (body : BookingBody) :
    Pending.Consistent db (Pending.enter body, db) := by
  unfold Pending.enter
  split
  · refine consistent_failed db _ ?_
    decide
  · exact (rfl : db = db)

theorem consistent_resume (D : DateParse) (db : Store) (r : Pending × Store)
    (h : Pending.Consistent db r) : Pending.Consistent db (r.1.resume D r.2) := by
  obtain ⟨p, s⟩ := r
  cases p with
  | findVehicle body =>
    have hs : s = db := h
    subst hs
    simp only [Pending.resume]
    split
    · exact consistent_failed s _ (by simp [serverError])
    · refine consistent_failed s _ ?_
      decide
    · exact (rfl : s = s)
  | findConflict body =>
    have hs : s = db := h
    subst hs
    simp only [Pending.resume]
    split
    · exact consistent_failed s _ (by simp [serverError])
    · refine consistent_failed s _ ?_
      decide
    · exact (rfl : s = s)
  | save body =>
    have hs : s = db := h
    subst hs
    simp only [Pending.resume]
    split
    · exact consistent_failed s _ (by simp [serverError])
    · rename_i booking _
      exact ⟨booking, rfl⟩
  | populate booking =>
    have hs : ∃ b, s = { db with bookings := db.bookings ++ [b], nextId := db.nextId + 1 } := h
    simp only [Pending.resume]
    split
    · exact Or.inr ⟨rfl, hs⟩
    · exact Or.inr ⟨rfl, hs⟩
  | done res => exact h

theorem consistent_serve (D : DateParse) (db : Store) (n : Nat) (r : Pending × Store)
    (h : Pending.Consistent db r) : Pending.Consistent db (Pending.serve D n r) := by
  induction n generalizing r with
  | zero => exact h
  | succ n ih => exact ih _ (consistent_resume D db r h)

theorem serve_done (D : DateParse) (n : Nat) (res : Response) (s : Store) :
    Pending.serve D n (.done res, s) = (.done res, s) := by
  induction n with
  | zero => rfl
  | succ n ih => exact ih

theorem serve_four (D : DateParse) (db : Store) (body : BookingBody) (n : Nat) :
    Pending.serve D (n + 4) (Pending.enter body, db) =
      (.done (createBooking D db body).1, (createBooking D db body).2) := by
  have h4 : Pending.serve D (n + 4) (Pending.enter body, db) =
      Pending.serve D n ((Pending.enter body).finish D db) := by
    induction n with
    | zero => rfl
    | succ n _ => rfl
  rw [h4, finish_enter, serve_done]

/-- C13, as stated, fails: the first three queries of the test request are
served, so the booking is saved, and the populate query of lines 59-61 is
rejected; the call answers 500 and the booking is stored. -/
theorem failure_atomicity_counterexample :
    (createBookingRejecting isoDateParse testDb testBooking 3 .databaseError).1 =
        serverError .databaseError ∧
      (serverError .databaseError).status = 500 ∧
      (createBookingRejecting isoDateParse testDb testBooking 3 .databaseError).2.bookings =
        [storedBooking] ∧
      testDb.bookings = [] := by
  decide

/-- C13, amended. Whenever `createBooking` answers 400, 404 or 409 the database
is exactly what it was before the call; so it is whenever the rejected query is
one of the two reads that come before `booking.save()`, and whenever a call all
of whose queries are served answers with a status other than 201. In every
case the vehicles are unchanged and the bookings are those before the call,
followed by at most the one new booking. -/
theorem failure_atomicity (D : DateParse) (db : Store) (body : BookingBody) :
    ((createBooking D db body).1.status ≠ 201 → (createBooking D db body).2 = db) ∧
      (∀ served err,
        (createBookingRejecting D db body served err).1.status = 400 ∨
          (createBookingRejecting D db body served err).1.status = 404 ∨
          (createBookingRejecting D db body served err).1.status = 409 →
        (createBookingRejecting D db body served err).2 = db) ∧
      (∀ served err, served ≤ 1 → (createBookingRejecting D db body served err).2 = db) ∧
      (∀ served err, (createBookingRejecting D db body served err).2 = db ∨
        ∃ b, (createBookingRejecting D db body served err).2 =
          { db with bookings := db.bookings ++ [b], nextId := db.nextId + 1 }) ∧
      (∀ served err, 4 ≤ served →
        createBookingRejecting D db body served err = createBooking D db body) := by
  have hcons : ∀ served, Pending.Consistent db (Pending.serve D served (Pending.enter body, db)) :=
    fun served => consistent_serve D db served _ (consistent_enter db body)
  refine ⟨?_, ?_, ?_, ?_, ?_⟩
  · intro hfail
    rcases createBooking_cases D db body with ⟨hs, _⟩ | ⟨b, hb⟩
    · exact hs
    · exact absurd hb.status hfail
  · intro served err hstatus
    have h := hcons served
    unfold createBookingRejecting at hstatus ⊢
    unfold Pending.Consistent at h
    cases hp : (Pending.serve D served (Pending.enter body, db)).1 with
    | findVehicle b => rw [hp] at h; exact h
    | findConflict b => rw [hp] at h; exact h
    | save b => rw [hp] at h; exact h
    | populate b =>
      rw [hp] at hstatus
      simp [Pending.rejected, serverError] at hstatus
    | done res =>
      rw [hp] at h hstatus
      rcases h with ⟨hs, _⟩ | ⟨h201, _⟩
      · exact hs
      · simp only [Pending.rejected] at hstatus
        rw [h201] at hstatus
        simp at hstatus
  · intro served err hle
    unfold createBookingRejecting
    rcases served with _ | _ | n
    · rfl
    · simp only [Pending.serve, Pending.enter]
      split
      · rfl
      · simp only [Pending.resume]
        split <;> rfl
    · omega
  · intro served err
    have h := hcons served
    unfold createBookingRejecting
    unfold Pending.Consistent at h
    cases hp : (Pending.serve D served (Pending.enter body, db)).1 with
    | findVehicle b => rw [hp] at h; exact Or.inl h
    | findConflict b => rw [hp] at h; exact Or.inl h
    | save b => rw [hp] at h; exact Or.inl h
    | populate b => rw [hp] at h; exact Or.inr h
    | done res =>
      rw [hp] at h
      rcases h with ⟨hs, _⟩ | ⟨_, hb⟩
      · exact Or.inl hs
      · exact Or.inr hb
  · intro served err hle
    obtain ⟨n, rfl⟩ : ∃ n, served = n + 4 := ⟨served - 4, by omega⟩
    unfold createBookingRejecting
    rw [serve_four]
    rfl

/-- C13, amended, on the test-suite: the conflicting request is answered 409
and the database, which holds the first booking, is unchanged. -/
theorem failure_atomicity_witness :
    (createBooking isoDateParse bookedDb conflictingBooking).1.status ≠ 201 ∧
      (createBooking isoDateParse bookedDb conflictingBooking).2 = bookedDb :=
  ⟨by decide,
   (failure_atomicity isoDateParse bookedDb conflictingBooking).1 (by decide)⟩

end FleetLink
